import Mathlib

/-!
# MageWithABadApple: the frame playback engine of `src/appMain.cpp`

A shallow embedding of `applicationEinkHandler` (lines 29-154 of
`src/appMain.cpp`) and theorems about it.

* The function-local `static` variables become the fields of `State`.
* Everything the handler asks of its collaborators during one call (display
  geometry, `millis()`, the SD card, `malloc`) is the per-tick `Env`.
* Every call the handler makes on a collaborator is recorded, in program
  order and with its arguments, as an `Event`.
* The target is the ESP32-S3 of the PocketMage: `unsigned long` and `size_t`
  are 32 bits wide, and unsigned arithmetic is taken modulo `2 ^ 32`.
-/

namespace BadApple

/-! ## Strings -/

/-- An Arduino `String`: its sequence of characters, one `Char` per `char`. -/
abbrev ArduinoString := List Char

/-- The method `String::startsWith(prefix)`. -/
def startsWith (s pre : ArduinoString) : Bool := pre.isPrefixOf s

/-- The method `String::endsWith(suffix)`. -/
def endsWith (s suf : ArduinoString) : Bool := suf.isSuffixOf s

/-- The method `String::substring(from)`: the characters from index `from`
to the end, empty when `from` is past the end. -/
def substring (s : ArduinoString) (start : Nat) : ArduinoString := s.drop start

/-- Line 40: `const String folder = "/screensavers/badapple";` -/
def folder : ArduinoString := "/screensavers/badapple".toList

/-! ## Machine integers -/

/-- Width in bits of `unsigned long` and of `size_t` on the target. -/
def ULONG_BITS : Nat := 32

/-- Conversion of a mathematical value to a `w`-bit unsigned integer. -/
def wrap (w n : Nat) : Nat := n % 2 ^ w

/-- Subtraction of `w`-bit unsigned integers: `a - b` modulo `2 ^ w`. -/
def wrapSub (w a b : Nat) : Nat := (a % 2 ^ w + 2 ^ w - b % 2 ^ w) % 2 ^ w

/-- The cast `(size_t)(v)` of an `int`. -/
def toSizeT (v : Int) : Nat := (v % (2 : Int) ^ ULONG_BITS).toNat

/-- Line 45: `(size_t)(dispW) * (size_t)(dispH) / 8`, the product taken in
`size_t`. -/
def expectedOf (dispW dispH : Int) : Nat :=
  wrap ULONG_BITS (toSizeT dispW * toSizeT dispH) / 8

/-! ## Collaborators -/

/-- One entry of a directory listing, as `openNextFile` delivers it. -/
structure DirEntry where
  name : ArduinoString
  isDirectory : Bool
  deriving DecidableEq, Repr

/-- What an opened frame file answers: `f.size()` and the value returned by
`f.read(buf, expectedSize)`. -/
structure FileResp where
  size : Nat
  readBytes : Nat
  deriving DecidableEq, Repr

/-- The answers of the collaborators during one call of the handler. A field
is consulted only if the call reaches the line it belongs to. -/
structure Env where
  /-- Line 43, `display.width()`. -/
  dispW : Int
  /-- Line 44, `display.height()`. -/
  dispH : Int
  /-- Line 51, the clock read by the first `millis()` of the initialisation. -/
  msReset : Nat
  /-- Line 55 and the loop of lines 62-81: `none` when the folder does not
  open, otherwise the entries `openNextFile` delivers, in order. -/
  dir : Option (List DirEntry)
  /-- Line 96: whether `malloc` returns a block. -/
  mallocOk : Bool
  /-- Line 105, the clock read at the end of the initialisation. -/
  msLoaded : Nat
  /-- Line 112, the clock read at the pacing check. -/
  msNow : Nat
  /-- Line 118, `SD_MMC.open(path, FILE_READ)`: `none` when the file does not
  open. -/
  file : ArduinoString → Option FileResp

/-- A call on a collaborator. A buffer argument is `none` for `nullptr` and
`some n` for the block of `n` bytes obtained from `malloc`. -/
inductive Event where
  /-- The status line, `OLED().oledWord(msg)`. -/
  | oledWord (msg : String)
  /-- Line 55, `SD_MMC.open(folder)`. -/
  | openDir (path : ArduinoString)
  /-- Line 82, `dir.close()`. -/
  | closeDir
  /-- Line 96, `malloc(size)`. -/
  | malloc (size : Nat)
  /-- Line 118, `SD_MMC.open(path, FILE_READ)`. -/
  | openFile (path : ArduinoString)
  /-- Line 138, `f.read(buf, len)`. -/
  | read (buf : Option Nat) (len : Nat)
  /-- Lines 132 and 139, `f.close()`. -/
  | closeFile
  /-- Line 146. -/
  | setFullWindow
  /-- Line 147, `display.fillScreen(GxEPD_WHITE)`. -/
  | fillScreen
  /-- Line 149, `display.drawBitmap(0, 0, buf, dispW, dispH, ...)`. -/
  | drawBitmap (buf : Option Nat) (w h : Int)
  /-- Line 150, `EINK().refresh()`. -/
  | refresh
  deriving DecidableEq, Repr

/-! ## Playback state -/

/-- The `static` variables of `applicationEinkHandler` (lines 31-38). -/
structure State where
  initialized : Bool
  frames : List ArduinoString
  idx : Nat
  lastMs : Nat
  frameDelayMs : Nat
  buf : Option Nat
  expectedSize : Nat
  warnedSize : Bool
  deriving DecidableEq, Repr

/-- The initialisers of lines 31-38. -/
def initialState : State :=
  { initialized := false, frames := [], idx := 0, lastMs := 0, frameDelayMs := 80,
    buf := none, expectedSize := 0, warnedSize := false }

/-! ## Initialisation (lines 47-107) -/

/-- Lines 66-77: the name of a file entry made absolute under `folder`. -/
def normalizeName (name : ArduinoString) : ArduinoString :=
  if !startsWith name folder then
    let base := name
    let base := if startsWith base "/".toList then substring base 1 else base
    let full := folder
    let full := if !endsWith full "/".toList then full ++ "/".toList else full
    full ++ base
  else name

/-- The loop of lines 62-81: the normalised names of the entries that are not
directories, in listing order. -/
def scanEntries : List DirEntry → List ArduinoString
  | [] => []
  | entry :: rest =>
    if !entry.isDirectory then normalizeName entry.name :: scanEntries rest
    else scanEntries rest

/-- Lines 90-92: the comparison handed to `std::sort`, `a < b` on `String`
(character-wise lexicographic). -/
def frameLess (a b : ArduinoString) : Bool := decide (a < b)

/-- Insertion of `x` into a list sorted under `less`, after the elements below
it. -/
def sortInsert {α : Type} (less : α → α → Bool) (x : α) : List α → List α
  | [] => [x]
  | y :: ys => if less y x then y :: sortInsert less x ys else x :: y :: ys

/-- The call `std::sort(first, last, less)`: the elements in ascending order
under `less`. -/
def stdSort {α : Type} (less : α → α → Bool) : List α → List α
  | [] => []
  | x :: xs => sortInsert less x (stdSort less xs)

/-- Result of the initialisation block: the state, the calls made, and whether
the block ended the call with `return`. -/
structure InitOutcome where
  state : State
  events : List Event
  returned : Bool

/-- Lines 47-107, with `expected` the value of line 45. -/
def initBlock (env : Env) (expected : Nat) (s : State) : InitOutcome :=
  if !s.initialized then
    let s := { s with initialized := true, frames := [], idx := 0,
                      lastMs := wrap ULONG_BITS env.msReset, warnedSize := false }
    match env.dir with
    | none =>
      { state := s, events := [.openDir folder, .oledWord "No BadApple folder"],
        returned := true }
    | some entries =>
      let s := { s with frames := s.frames ++ scanEntries entries }
      if s.frames.isEmpty then
        { state := s,
          events := [.openDir folder, .closeDir, .oledWord "No BadApple frames"],
          returned := true }
      else
        let s := { s with frames := stdSort frameLess s.frames }
        let s := { s with expectedSize := expected }
        let s := { s with buf := if env.mallocOk then some s.expectedSize else none }
        if s.buf.isNone then
          { state := { s with frames := [] },
            events := [.openDir folder, .closeDir, .malloc s.expectedSize,
                       .oledWord "No RAM for BadApple"],
            returned := true }
        else
          { state := { s with lastMs := wrap ULONG_BITS env.msLoaded, idx := 0 },
            events := [.openDir folder, .closeDir, .malloc s.expectedSize,
                       .oledWord "BadApple loaded"],
            returned := false }
  else
    { state := s, events := [], returned := false }

/-! ## Playing one frame (lines 109-154) -/

/-- Line 113: the pacing check lets the call through, `!(now - lastMs <
frameDelayMs)` in `unsigned long`. -/
def gateOpen (now : Nat) (s : State) : Bool :=
  !decide (wrapSub ULONG_BITS now s.lastMs < s.frameDelayMs)

/-- Lines 121, 133, 141 and 153: `idx = (idx + 1) % frames.size()`. -/
def advance (s : State) : State :=
  { s with idx := (s.idx + 1) % s.frames.length }

/-- Lines 109-154. The result is `none` when `frames[idx]` is read out of
range, which C++ leaves undefined. -/
def playBlock (env : Env) (s : State) : Option (State × List Event) :=
  if s.frames.isEmpty then some (s, [])
  else
    let now := wrap ULONG_BITS env.msNow
    if !gateOpen now s then some (s, [])
    else
      let s := { s with lastMs := now }
      match s.frames[s.idx]? with
      | none => none
      | some path =>
        match env.file path with
        | none => some (advance s, [.openFile path])
        | some f =>
          if f.size ≠ s.expectedSize then
            if !s.warnedSize then
              some (advance { s with warnedSize := true },
                    [.openFile path, .oledWord "Frame size mismatch", .closeFile])
            else
              some (advance s, [.openFile path, .closeFile])
          else
            let readBytes := f.readBytes
            if readBytes ≠ s.expectedSize then
              some (advance s,
                    [.openFile path, .read s.buf s.expectedSize, .closeFile])
            else
              some (advance s,
                    [.openFile path, .read s.buf s.expectedSize, .closeFile,
                     .setFullWindow, .fillScreen, .drawBitmap s.buf env.dispW env.dispH,
                     .refresh])

/-- The function `applicationEinkHandler` (lines 29-154): one tick. -/
def applicationEinkHandler (env : Env) (s : State) : Option (State × List Event) :=
  let dispW := env.dispW
  let dispH := env.dispH
  let expected := expectedOf dispW dispH
  let init := initBlock env expected s
  if init.returned then some (init.state, init.events)
  else
    match playBlock env init.state with
    | none => none
    | some (s', events) => some (s', init.events ++ events)

/-! ## Runs of ticks -/

/-- Record of one tick of a run. -/
structure TickLog where
  env : Env
  before : State
  events : List Event
  after : State

/-- The loop of `einkHandler` (lines 185-190) for the ticks whose
environments are listed: the handler is called once per tick on the state the
previous tick left. -/
def runTicks : List Env → State → Option (List TickLog)
  | [], _ => some []
  | env :: rest, s =>
    match applicationEinkHandler env s with
    | none => none
    | some (s', events) =>
      match runTicks rest s' with
      | none => none
      | some logs =>
        some ({ env := env, before := s, events := events, after := s' } :: logs)

/-! ## Observations on states, event lists and tick records -/

/-- The state in which a tick arrives at line 109, after the initialisation
block; it is the state the tick started in when that was initialised. -/
def pacingState (env : Env) (s : State) : State :=
  (initBlock env (expectedOf env.dispW env.dispH) s).state

/-- The index designates an element of the frame list, or the list is empty. -/
def State.IndexValid (s : State) : Prop :=
  s.frames = [] ∨ s.idx < s.frames.length

/-- The calls of lines 146-150 on the display: fill, draw and refresh. -/
def Event.isDisplayCall : Event → Bool
  | .setFullWindow => true
  | .fillScreen => true
  | .drawBitmap _ _ _ => true
  | .refresh => true
  | _ => false

/-- The call of line 138 that transfers file bytes into the buffer. -/
def Event.isRead : Event → Bool
  | .read _ _ => true
  | _ => false

/-- The paths of the frame files a list of calls tries to open, in order. -/
def openedFiles : List Event → List ArduinoString
  | [] => []
  | .openFile path :: rest => path :: openedFiles rest
  | _ :: rest => openedFiles rest

/-- The status messages a list of calls shows, in order. -/
def messages : List Event → List String
  | [] => []
  | .oledWord msg :: rest => msg :: messages rest
  | _ :: rest => messages rest

/-- The number of attempts to open the frame folder in a list of calls. -/
def dirOpens : List Event → Nat
  | [] => 0
  | .openDir _ :: rest => dirOpens rest + 1
  | _ :: rest => dirOpens rest

/-- The calls of a tick that opens `path`, reads it in full into `buf` and
draws it (lines 118, 138, 139, 146-150). -/
def drawEvents (path : ArduinoString) (buf : Option Nat) (size : Nat) (w h : Int) :
    List Event :=
  [.openFile path, .read buf size, .closeFile, .setFullWindow, .fillScreen,
   .drawBitmap buf w h, .refresh]

/-- The display calls of a drawn frame (lines 146-150). -/
def drawSequence (buf : Option Nat) (w h : Int) : List Event :=
  [.setFullWindow, .fillScreen, .drawBitmap buf w h, .refresh]

/-- The calls of an initialisation that loads the frames (lines 55, 82, 96 and
104). -/
def loadedEvents (size : Nat) : List Event :=
  [.openDir folder, .closeDir, .malloc size, .oledWord "BadApple loaded"]

/-- The tick passed the pacing check of line 113: it reached the check with a
non-empty frame list and `now - lastMs < frameDelayMs` was false. -/
def TickLog.gate (l : TickLog) : Bool :=
  let p := pacingState l.env l.before
  !p.frames.isEmpty && gateOpen (wrap ULONG_BITS l.env.msNow) p

/-- The tick passed the pacing check and its current frame file opened with a
size other than `expectedSize` (line 126). -/
def TickLog.mismatch (l : TickLog) : Bool :=
  let p := pacingState l.env l.before
  l.gate &&
    match p.frames[p.idx]? with
    | none => false
    | some path =>
      match l.env.file path with
      | none => false
      | some f => decide (f.size ≠ p.expectedSize)

/-- The conditions under which a tick that arrives at line 109 in state `p`
reaches the drawing code of lines 146-150: `p` is initialised with a non-empty
frame list, the pacing check lets the tick through, the current frame file
opens, reports `expectedSize` bytes, and the read returns `expectedSize`. -/
def FullSuccess (env : Env) (p : State) : Prop :=
  p.initialized = true ∧ p.frames ≠ [] ∧
  p.frameDelayMs ≤ wrapSub ULONG_BITS (wrap ULONG_BITS env.msNow) p.lastMs ∧
  ∃ path f, p.frames[p.idx]? = some path ∧ env.file path = some f ∧
    f.size = p.expectedSize ∧ f.readBytes = p.expectedSize

/-- The number of ticks of a run that passed the pacing check. -/
def gateCount (logs : List TickLog) : Nat := logs.countP TickLog.gate

/-- Along `logs`, the ticks that pass the pacing check draw the frames of `fr`
one after the other, cyclically, starting at position `i`: the tick that is the
`(k + 1)`-th to pass draws `fr[(i + k) % fr.length]` after the calls `pre j`
of its initialisation, and leaves `idx = (i + k + 1) % fr.length`. -/
def CyclesFrom (fr : List ArduinoString) (buf : Option Nat) (size : Nat)
    (pre : Nat → List Event) (i : Nat) (logs : List TickLog) : Prop :=
  ∀ j (hj : j < logs.length), logs[j].gate = true →
    ∃ k path, gateCount (logs.take (j + 1)) = k + 1 ∧
      fr[(i + k) % fr.length]? = some path ∧
      logs[j].events =
        pre j ++ drawEvents path buf size logs[j].env.dispW logs[j].env.dispH ∧
      logs[j].after.idx = (i + k + 1) % fr.length

/-- Every frame file of `fr` opens under `env` with `size` bytes and is read
in full. -/
def FramesValid (env : Env) (fr : List ArduinoString) (size : Nat) : Prop :=
  ∀ path ∈ fr, ∃ f, env.file path = some f ∧ f.size = size ∧ f.readBytes = size

/-- The Path Normalizer as section 4.1 of the specification words it, for a
base folder `base`: a name that starts with `base` is returned unchanged;
otherwise one leading separator is stripped from the name, if present, and the
result is `base`, the separator and the stripped name. -/
def normalizeSpec (base name : ArduinoString) : ArduinoString :=
  if base.isPrefixOf name then name
  else
    base ++ ['/'] ++
      (match name with
       | '/' :: stripped => stripped
       | _ => name)

/-- The number of times a list of calls shows the size warning of line 129. -/
def sizeWarnings (events : List Event) : Nat :=
  (messages events).count "Frame size mismatch"

/-! ## Sample data -/

/-- Listing of the example scenario, the files `0001.bin` to `0010.bin`. -/
def exampleListing : List DirEntry :=
  [ { name := "0001.bin".toList, isDirectory := false },
    { name := "0002.bin".toList, isDirectory := false },
    { name := "0003.bin".toList, isDirectory := false },
    { name := "0004.bin".toList, isDirectory := false },
    { name := "0005.bin".toList, isDirectory := false },
    { name := "0006.bin".toList, isDirectory := false },
    { name := "0007.bin".toList, isDirectory := false },
    { name := "0008.bin".toList, isDirectory := false },
    { name := "0009.bin".toList, isDirectory := false },
    { name := "0010.bin".toList, isDirectory := false } ]

/-- Tick of the example scenario at clock reading `t`: a 160x200 display, and
every file opens with 4000 bytes and is read in full. -/
def exampleEnv (t : Nat) : Env :=
  { dispW := 160, dispH := 200, msReset := t, dir := some exampleListing, mallocOk := true,
    msLoaded := t, msNow := t, file := fun _ => some { size := 4000, readBytes := 4000 } }

/-- Path of the example frame at 1-based position `n` (for `n` from 1 to 99). -/
def examplePath (n : Nat) : ArduinoString :=
  "/screensavers/badapple/".toList ++ (if n < 10 then "000" else "00").toList ++
    (Nat.repr n).toList ++ ".bin".toList

/-- Ticks of the example scenario after the initialising one, at clock readings
80, 160, ..., 880. -/
def exampleLaterTicks : List Env :=
  (List.range 11).map fun i => exampleEnv (80 * (i + 1))

/-- Tick at clock reading `t` on a 160x200 display and a folder of two files,
one of them after a subdirectory, where opening any frame file answers `file`. -/
def sampleEnv (t : Nat) (file : Option FileResp) : Env :=
  { dispW := 160, dispH := 200, msReset := t,
    dir := some [ { name := "0002.bin".toList, isDirectory := false },
                  { name := "extras".toList, isDirectory := true },
                  { name := "/0001.bin".toList, isDirectory := false } ],
    mallocOk := true, msLoaded := t, msNow := t, file := fun _ => file }

/-- State left by the initialising tick `sampleEnv 0 file`. -/
def sampleState : State :=
  { initialized := true, frames := [examplePath 1, examplePath 2], idx := 0, lastMs := 0,
    frameDelayMs := 80, buf := some 4000, expectedSize := 4000, warnedSize := false }

/-! ## The initialisation block -/

theorem initBlock_of_initialized (env : Env) (expected : Nat) (s : State)
    (h : s.initialized = true) :
    initBlock env expected s = { state := s, events := [], returned := false } := by
  simp [initBlock, h]

theorem pacingState_of_initialized (env : Env) (s : State) (h : s.initialized = true) :
    pacingState env s = s := by
  simp [pacingState, initBlock_of_initialized env _ s h]

theorem length_sortInsert {α : Type} (less : α → α → Bool) (x : α) (l : List α) :
    (sortInsert less x l).length = l.length + 1 := by
  induction l with
  | nil => rfl
  | cons y ys ih =>
    unfold sortInsert
    split <;> simp [ih]

theorem length_stdSort {α : Type} (less : α → α → Bool) (l : List α) :
    (stdSort less l).length = l.length := by
  induction l with
  | nil => rfl
  | cons x xs ih => simp [stdSort, length_sortInsert, ih]

theorem stdSort_ne_nil {α : Type} (less : α → α → Bool) (l : List α) (h : l ≠ []) :
    stdSort less l ≠ [] := by
  intro hs
  have := length_stdSort less l
  rw [hs] at this
  exact h (List.length_eq_zero.mp this.symm)

theorem mem_sortInsert {α : Type} (less : α → α → Bool) (x a : α) (l : List α) :
    a ∈ sortInsert less x l ↔ a = x ∨ a ∈ l := by
  induction l with
  | nil => simp [sortInsert]
  | cons y ys ih =>
    unfold sortInsert
    split
    · simp only [List.mem_cons, ih]
      tauto
    · simp

theorem mem_stdSort {α : Type} (less : α → α → Bool) (a : α) (l : List α) :
    a ∈ stdSort less l ↔ a ∈ l := by
  induction l with
  | nil => simp [stdSort]
  | cons x xs ih => simp [stdSort, mem_sortInsert, ih]

/-- Lines 47-59: the folder does not open. -/
theorem initBlock_dir_none (env : Env) (expected : Nat) (s : State)
    (hi : s.initialized = false) (hd : env.dir = none) :
    initBlock env expected s =
      { state := { s with initialized := true, frames := [], idx := 0,
                          lastMs := wrap ULONG_BITS env.msReset, warnedSize := false },
        events := [.openDir folder, .oledWord "No BadApple folder"],
        returned := true } := by
  simp [initBlock, hi, hd]

/-- Lines 47-87: the folder opens and holds no file. -/
theorem initBlock_no_frames (env : Env) (expected : Nat) (s : State) (entries : List DirEntry)
    (hi : s.initialized = false) (hd : env.dir = some entries)
    (hs : scanEntries entries = []) :
    initBlock env expected s =
      { state := { s with initialized := true, frames := [], idx := 0,
                          lastMs := wrap ULONG_BITS env.msReset, warnedSize := false },
        events := [.openDir folder, .closeDir, .oledWord "No BadApple frames"],
        returned := true } := by
  simp [initBlock, hi, hd, hs]

/-- Lines 47-101: the folder holds files and `malloc` fails. -/
theorem initBlock_no_ram (env : Env) (expected : Nat) (s : State) (entries : List DirEntry)
    (hi : s.initialized = false) (hd : env.dir = some entries)
    (hs : scanEntries entries ≠ []) (hm : env.mallocOk = false) :
    initBlock env expected s =
      { state := { s with initialized := true, frames := [], idx := 0,
                          lastMs := wrap ULONG_BITS env.msReset, warnedSize := false,
                          expectedSize := expected, buf := none },
        events := [.openDir folder, .closeDir, .malloc expected,
                   .oledWord "No RAM for BadApple"],
        returned := true } := by
  simp [initBlock, hi, hd, hs, hm]

/-- Lines 47-107: the folder holds files and the buffer is allocated. -/
theorem initBlock_loaded (env : Env) (expected : Nat) (s : State) (entries : List DirEntry)
    (hi : s.initialized = false) (hd : env.dir = some entries)
    (hs : scanEntries entries ≠ []) (hm : env.mallocOk = true) :
    initBlock env expected s =
      { state := { s with initialized := true,
                          frames := stdSort frameLess (scanEntries entries), idx := 0,
                          lastMs := wrap ULONG_BITS env.msLoaded, warnedSize := false,
                          expectedSize := expected, buf := some expected },
        events := loadedEvents expected,
        returned := false } := by
  simp [initBlock, hi, hd, hs, hm, loadedEvents]

/-- The five ways through the initialisation block. -/
theorem initBlock_cases (env : Env) (expected : Nat) (s : State) :
    (s.initialized = true ∧
      initBlock env expected s = { state := s, events := [], returned := false }) ∨
    (s.initialized = false ∧ env.dir = none ∧
      initBlock env expected s =
        { state := { s with initialized := true, frames := [], idx := 0,
                            lastMs := wrap ULONG_BITS env.msReset, warnedSize := false },
          events := [.openDir folder, .oledWord "No BadApple folder"],
          returned := true }) ∨
    (∃ entries, s.initialized = false ∧ env.dir = some entries ∧ scanEntries entries = [] ∧
      initBlock env expected s =
        { state := { s with initialized := true, frames := [], idx := 0,
                            lastMs := wrap ULONG_BITS env.msReset, warnedSize := false },
          events := [.openDir folder, .closeDir, .oledWord "No BadApple frames"],
          returned := true }) ∨
    (∃ entries, s.initialized = false ∧ env.dir = some entries ∧ scanEntries entries ≠ [] ∧
      env.mallocOk = false ∧
      initBlock env expected s =
        { state := { s with initialized := true, frames := [], idx := 0,
                            lastMs := wrap ULONG_BITS env.msReset, warnedSize := false,
                            expectedSize := expected, buf := none },
          events := [.openDir folder, .closeDir, .malloc expected,
                     .oledWord "No RAM for BadApple"],
          returned := true }) ∨
    (∃ entries, s.initialized = false ∧ env.dir = some entries ∧ scanEntries entries ≠ [] ∧
      env.mallocOk = true ∧
      initBlock env expected s =
        { state := { s with initialized := true,
                            frames := stdSort frameLess (scanEntries entries), idx := 0,
                            lastMs := wrap ULONG_BITS env.msLoaded, warnedSize := false,
                            expectedSize := expected, buf := some expected },
          events := loadedEvents expected,
          returned := false }) := by
  cases hi : s.initialized with
  | true => exact Or.inl ⟨rfl, initBlock_of_initialized env expected s hi⟩
  | false =>
    cases hd : env.dir with
    | none => exact Or.inr (Or.inl ⟨rfl, rfl, initBlock_dir_none env expected s hi hd⟩)
    | some entries =>
      by_cases hs : scanEntries entries = []
      · exact Or.inr (Or.inr (Or.inl
          ⟨entries, rfl, rfl, hs, initBlock_no_frames env expected s entries hi hd hs⟩))
      · cases hm : env.mallocOk with
        | false =>
          exact Or.inr (Or.inr (Or.inr (Or.inl
            ⟨entries, rfl, rfl, hs, rfl, initBlock_no_ram env expected s entries hi hd hs hm⟩)))
        | true =>
          exact Or.inr (Or.inr (Or.inr (Or.inr
            ⟨entries, rfl, rfl, hs, rfl, initBlock_loaded env expected s entries hi hd hs hm⟩)))

/-- An initialisation that ends the call leaves the frame list empty. -/
theorem initBlock_returned_frames (env : Env) (expected : Nat) (s : State)
    (h : (initBlock env expected s).returned = true) :
    (initBlock env expected s).state.frames = [] := by
  rcases initBlock_cases env expected s with ⟨_, he⟩ | ⟨_, _, he⟩ | ⟨_, _, _, _, he⟩ |
    ⟨_, _, _, _, _, he⟩ | ⟨_, _, _, _, _, he⟩ <;> rw [he] at h ⊢ <;> simp_all

/-- The state at the pacing check is always initialised. -/
theorem pacingState_initialized (env : Env) (s : State) :
    (pacingState env s).initialized = true := by
  unfold pacingState
  rcases initBlock_cases env (expectedOf env.dispW env.dispH) s with
    ⟨hi, he⟩ | ⟨_, _, he⟩ | ⟨_, _, _, _, he⟩ | ⟨_, _, _, _, _, he⟩ | ⟨_, _, _, _, _, he⟩ <;>
    rw [he]
  exact hi

/-- The initialisation block never changes `frameDelayMs`. -/
theorem pacingState_frameDelayMs (env : Env) (s : State) :
    (pacingState env s).frameDelayMs = s.frameDelayMs := by
  unfold pacingState
  rcases initBlock_cases env (expectedOf env.dispW env.dispH) s with
    ⟨hi, he⟩ | ⟨_, _, he⟩ | ⟨_, _, _, _, he⟩ | ⟨_, _, _, _, _, he⟩ | ⟨_, _, _, _, _, he⟩ <;>
    rw [he]

/-- The state at the pacing check has a valid index when the tick started
with one. -/
theorem pacingState_indexValid (env : Env) (s : State) (h : s.IndexValid) :
    (pacingState env s).IndexValid := by
  unfold pacingState
  rcases initBlock_cases env (expectedOf env.dispW env.dispH) s with
    ⟨hi, he⟩ | ⟨_, _, he⟩ | ⟨_, _, _, _, he⟩ | ⟨_, _, _, _, _, he⟩ |
    ⟨entries, _, _, hs, _, he⟩ <;> rw [he]
  · exact h
  · exact Or.inl rfl
  · exact Or.inl rfl
  · exact Or.inl rfl
  · right
    simp only [length_stdSort]
    exact List.length_pos.mpr hs

/-! ## One tick, seen from the pacing check -/

/-- A tick that reaches line 109 with an empty frame list makes the calls of
its initialisation block and nothing else. -/
theorem handler_of_frames_nil (env : Env) (s : State)
    (h : (pacingState env s).frames = []) :
    applicationEinkHandler env s =
      some (pacingState env s, (initBlock env (expectedOf env.dispW env.dispH) s).events) := by
  unfold pacingState at h
  unfold applicationEinkHandler pacingState
  simp only
  split
  · rfl
  · simp [playBlock, h]

/-- A tick that reaches line 109 with frames continues with the play block. -/
theorem handler_of_frames_ne (env : Env) (s : State)
    (h : (pacingState env s).frames ≠ []) :
    applicationEinkHandler env s =
      (playBlock env (pacingState env s)).map fun r =>
        (r.1, (initBlock env (expectedOf env.dispW env.dispH) s).events ++ r.2) := by
  unfold pacingState at h
  unfold applicationEinkHandler pacingState
  simp only
  split
  · rename_i hr
    exact absurd (initBlock_returned_frames env _ s hr) h
  · cases playBlock env (initBlock env (expectedOf env.dispW env.dispH) s).state with
    | none => rfl
    | some r => rfl

/-- For an initialised state the handler is the play block. -/
theorem handler_of_initialized (env : Env) (s : State) (h : s.initialized = true) :
    applicationEinkHandler env s = playBlock env s := by
  unfold applicationEinkHandler
  simp only [initBlock_of_initialized env _ s h]
  cases playBlock env s with
  | none => rfl
  | some r => simp

/-- The play block with the pacing check closed does nothing. -/
theorem playBlock_gate_closed (env : Env) (s : State)
    (h : wrapSub ULONG_BITS (wrap ULONG_BITS env.msNow) s.lastMs < s.frameDelayMs) :
    playBlock env s = some (s, []) := by
  unfold playBlock
  split
  · rfl
  · simp [gateOpen, h]

/-- The play block on an empty frame list does nothing. -/
theorem playBlock_frames_nil (env : Env) (s : State) (h : s.frames = []) :
    playBlock env s = some (s, []) := by
  simp [playBlock, h]

/-- The play block with the pacing check open, unfolded at the current
frame. -/
theorem playBlock_gate_open (env : Env) (s : State) (path : ArduinoString)
    (hpath : s.frames[s.idx]? = some path)
    (h : s.frameDelayMs ≤ wrapSub ULONG_BITS (wrap ULONG_BITS env.msNow) s.lastMs) :
    playBlock env s =
      match env.file path with
      | none =>
        some (advance { s with lastMs := wrap ULONG_BITS env.msNow }, [.openFile path])
      | some f =>
        if f.size ≠ s.expectedSize then
          if s.warnedSize = false then
            some (advance { s with lastMs := wrap ULONG_BITS env.msNow, warnedSize := true },
                  [.openFile path, .oledWord "Frame size mismatch", .closeFile])
          else
            some (advance { s with lastMs := wrap ULONG_BITS env.msNow },
                  [.openFile path, .closeFile])
        else if f.readBytes ≠ s.expectedSize then
          some (advance { s with lastMs := wrap ULONG_BITS env.msNow },
                [.openFile path, .read s.buf s.expectedSize, .closeFile])
        else
          some (advance { s with lastMs := wrap ULONG_BITS env.msNow },
                drawEvents path s.buf s.expectedSize env.dispW env.dispH) := by
  have hne : s.frames ≠ [] := by
    intro hnil
    simp [hnil] at hpath
  unfold playBlock
  simp only [List.isEmpty_iff, hne, if_false, gateOpen, Nat.not_lt.mpr h, decide_False,
    Bool.not_false, Bool.not_true, hpath, drawEvents]
  cases env.file path with
  | none => rfl
  | some f =>
    simp only
    by_cases hsz : f.size = s.expectedSize
    · by_cases hrd : f.readBytes = s.expectedSize <;> simp [hsz, hrd]
    · cases hw : s.warnedSize <;> simp [hsz, hw]

/-! ## Observations on event lists -/

theorem openedFiles_append (a b : List Event) :
    openedFiles (a ++ b) = openedFiles a ++ openedFiles b := by
  induction a with
  | nil => rfl
  | cons e rest ih => cases e <;> simp [openedFiles, ih]

theorem messages_append (a b : List Event) :
    messages (a ++ b) = messages a ++ messages b := by
  induction a with
  | nil => rfl
  | cons e rest ih => cases e <;> simp [messages, ih]

theorem dirOpens_append (a b : List Event) :
    dirOpens (a ++ b) = dirOpens a + dirOpens b := by
  induction a with
  | nil => simp [dirOpens]
  | cons e rest ih =>
    have hc : (e :: rest) ++ b = e :: (rest ++ b) := rfl
    rw [hc]
    cases e <;> simp only [dirOpens, ih]
    omega

/-- The initialisation block opens no frame file. -/
theorem openedFiles_initBlock (env : Env) (expected : Nat) (s : State) :
    openedFiles (initBlock env expected s).events = [] := by
  rcases initBlock_cases env expected s with ⟨_, he⟩ | ⟨_, _, he⟩ | ⟨_, _, _, _, he⟩ |
    ⟨_, _, _, _, _, he⟩ | ⟨_, _, _, _, _, he⟩ <;> rw [he] <;> rfl

/-- The initialisation block makes no call on the display. -/
theorem displayCalls_initBlock (env : Env) (expected : Nat) (s : State) :
    (initBlock env expected s).events.filter Event.isDisplayCall = [] := by
  rcases initBlock_cases env expected s with ⟨_, he⟩ | ⟨_, _, he⟩ | ⟨_, _, _, _, he⟩ |
    ⟨_, _, _, _, _, he⟩ | ⟨_, _, _, _, _, he⟩ <;> rw [he] <;> rfl

/-- The initialisation block reads no file. -/
theorem reads_initBlock (env : Env) (expected : Nat) (s : State) :
    (initBlock env expected s).events.filter Event.isRead = [] := by
  rcases initBlock_cases env expected s with ⟨_, he⟩ | ⟨_, _, he⟩ | ⟨_, _, _, _, he⟩ |
    ⟨_, _, _, _, _, he⟩ | ⟨_, _, _, _, _, he⟩ <;> rw [he] <;> rfl

/-- The initialisation block never shows the size warning. -/
theorem warnings_initBlock (env : Env) (expected : Nat) (s : State) :
    (messages (initBlock env expected s).events).count "Frame size mismatch" = 0 := by
  rcases initBlock_cases env expected s with ⟨_, he⟩ | ⟨_, _, he⟩ | ⟨_, _, _, _, he⟩ |
    ⟨_, _, _, _, _, he⟩ | ⟨_, _, _, _, _, he⟩ <;> rw [he] <;>
    simp [messages, loadedEvents]

/-- A frame list with a current frame is not empty. -/
theorem frames_ne_nil_of_current (s : State) (path : ArduinoString)
    (h : s.frames[s.idx]? = some path) : s.frames ≠ [] := by
  intro hnil
  simp [hnil] at h

/-- A tick whose pacing state has a current frame and an open gate, unfolded at
that frame. -/
theorem handler_gate_open (env : Env) (s : State) (path : ArduinoString)
    (hpath : (pacingState env s).frames[(pacingState env s).idx]? = some path)
    (h : (pacingState env s).frameDelayMs ≤
      wrapSub ULONG_BITS (wrap ULONG_BITS env.msNow) (pacingState env s).lastMs) :
    applicationEinkHandler env s =
      (playBlock env (pacingState env s)).map (fun r =>
        (r.1, (initBlock env (expectedOf env.dispW env.dispH) s).events ++ r.2)) ∧
    playBlock env (pacingState env s) =
      match env.file path with
      | none =>
        some (advance { pacingState env s with lastMs := wrap ULONG_BITS env.msNow },
              [.openFile path])
      | some f =>
        if f.size ≠ (pacingState env s).expectedSize then
          if (pacingState env s).warnedSize = false then
            some (advance { pacingState env s with
                    lastMs := wrap ULONG_BITS env.msNow, warnedSize := true },
                  [.openFile path, .oledWord "Frame size mismatch", .closeFile])
          else
            some (advance { pacingState env s with lastMs := wrap ULONG_BITS env.msNow },
                  [.openFile path, .closeFile])
        else if f.readBytes ≠ (pacingState env s).expectedSize then
          some (advance { pacingState env s with lastMs := wrap ULONG_BITS env.msNow },
                [.openFile path, .read (pacingState env s).buf (pacingState env s).expectedSize,
                 .closeFile])
        else
          some (advance { pacingState env s with lastMs := wrap ULONG_BITS env.msNow },
                drawEvents path (pacingState env s).buf (pacingState env s).expectedSize
                  env.dispW env.dispH) :=
  ⟨handler_of_frames_ne env s (frames_ne_nil_of_current _ path hpath),
   playBlock_gate_open env _ path hpath h⟩

/-- A state with a valid index and frames has a current frame. -/
theorem current_of_indexValid (s : State) (hv : s.IndexValid) (hne : s.frames ≠ []) :
    ∃ path, s.frames[s.idx]? = some path := by
  rcases hv with h | h
  · exact absurd h hne
  · exact ⟨s.frames[s.idx], List.getElem?_eq_getElem h⟩

/-- The state a gate-open tick of the play block leaves: only `idx` and
`lastMs` move, and `warnedSize` can only be raised. -/
theorem playBlock_gate_open_state (env : Env) (s : State) (path : ArduinoString)
    (hpath : s.frames[s.idx]? = some path)
    (h : s.frameDelayMs ≤ wrapSub ULONG_BITS (wrap ULONG_BITS env.msNow) s.lastMs) :
    ∃ s' events, playBlock env s = some (s', events) ∧
      s'.initialized = s.initialized ∧ s'.frames = s.frames ∧
      s'.idx = (s.idx + 1) % s.frames.length ∧ s'.lastMs = wrap ULONG_BITS env.msNow ∧
      s'.frameDelayMs = s.frameDelayMs ∧ s'.buf = s.buf ∧
      s'.expectedSize = s.expectedSize ∧ (s.warnedSize = true → s'.warnedSize = true) := by
  rw [playBlock_gate_open env s path hpath h]
  cases env.file path with
  | none => exact ⟨_, _, rfl, rfl, rfl, rfl, rfl, rfl, rfl, rfl, fun h => h⟩
  | some f =>
    simp only
    split
    · split
      · exact ⟨_, _, rfl, rfl, rfl, rfl, rfl, rfl, rfl, rfl, fun _ => rfl⟩
      · exact ⟨_, _, rfl, rfl, rfl, rfl, rfl, rfl, rfl, rfl, fun h => h⟩
    · split <;> exact ⟨_, _, rfl, rfl, rfl, rfl, rfl, rfl, rfl, rfl, fun h => h⟩

/-! ## Runs -/

theorem runTicks_cons (env : Env) (rest : List Env) (s s' : State) (events : List Event)
    (h : applicationEinkHandler env s = some (s', events)) :
    runTicks (env :: rest) s =
      (runTicks rest s').map fun logs =>
        { env := env, before := s, events := events, after := s' } :: logs := by
  simp only [runTicks, h]
  cases runTicks rest s' with
  | none => rfl
  | some logs => rfl

/-- An initialised state without frames is left as it is by every tick, which
makes no call. -/
theorem handler_disabled (env : Env) (s : State) (hi : s.initialized = true)
    (hf : s.frames = []) : applicationEinkHandler env s = some (s, []) := by
  rw [handler_of_initialized env s hi, playBlock_frames_nil env s hf]

/-- Every run from an initialised state without frames consists of ticks that
make no call and leave the state as it is. -/
theorem runTicks_disabled (envs : List Env) (s : State) (hi : s.initialized = true)
    (hf : s.frames = []) :
    runTicks envs s =
      some (envs.map fun env => { env := env, before := s, events := [], after := s }) := by
  induction envs with
  | nil => rfl
  | cons env rest ih =>
    rw [runTicks_cons env rest s s [] (handler_disabled env s hi hf), ih]
    rfl

/-- A run whose first tick ends in an initialised state without frames. -/
theorem runTicks_terminal (env : Env) (rest : List Env) (s p : State) (events : List Event)
    (h : applicationEinkHandler env s = some (p, events))
    (hi : p.initialized = true) (hf : p.frames = []) :
    runTicks (env :: rest) s =
      some ({ env := env, before := s, events := events, after := p } ::
        rest.map fun e => { env := e, before := p, events := [], after := p }) := by
  rw [runTicks_cons env rest s p events h, runTicks_disabled rest p hi hf]
  rfl

theorem map_eq_replicate {α β : Type} (f : α → β) (c : β) (h : ∀ a, f a = c) (l : List α) :
    l.map f = List.replicate l.length c := by
  induction l with
  | nil => rfl
  | cons a rest ih => simp [h a, ih, List.replicate_succ]

/-- An observation `g` of the calls of each tick, along a run whose first tick
ends in a state `p` that later ticks leave alone. -/
theorem map_events_terminal {β : Type} (g : List Event → β) (env : Env) (rest : List Env)
    (s p : State) (events : List Event) :
    (({ env := env, before := s, events := events, after := p } : TickLog) ::
        rest.map fun e => { env := e, before := p, events := [], after := p }).map
      (fun l => g l.events) = g events :: List.replicate rest.length (g []) := by
  simp only [List.map_cons, List.map_map]
  exact congrArg _ (map_eq_replicate _ (g []) (fun _ => rfl) rest)

theorem scanEntries_eq_nil_iff (entries : List DirEntry) :
    scanEntries entries = [] ↔ ∀ e ∈ entries, e.isDirectory = true := by
  induction entries with
  | nil => simp [scanEntries]
  | cons e rest ih =>
    unfold scanEntries
    cases he : e.isDirectory <;> simp [he, ih]

/-! ## Playing valid frames -/

/-- The play block on a state whose frames are all valid: it draws the current
frame when the pacing check lets it, and does nothing otherwise. -/
theorem playBlock_valid (env : Env) (p : State) (hidx : p.idx < p.frames.length)
    (hvalid : FramesValid env p.frames p.expectedSize) :
    playBlock env p =
      if gateOpen (wrap ULONG_BITS env.msNow) p then
        some (advance { p with lastMs := wrap ULONG_BITS env.msNow },
              drawEvents p.frames[p.idx] p.buf p.expectedSize env.dispW env.dispH)
      else some (p, []) := by
  by_cases hgate : p.frameDelayMs ≤ wrapSub ULONG_BITS (wrap ULONG_BITS env.msNow) p.lastMs
  · have hpath : p.frames[p.idx]? = some p.frames[p.idx] := List.getElem?_eq_getElem hidx
    obtain ⟨f, hf, hsz, hrd⟩ := hvalid p.frames[p.idx] (List.getElem_mem hidx)
    rw [playBlock_gate_open env p _ hpath hgate, hf]
    simp [gateOpen, hgate, hsz, hrd]
  · have hlt := Nat.lt_of_not_le hgate
    rw [playBlock_gate_closed env p hlt]
    simp [gateOpen, hlt]

theorem cyclesFrom_cons (fr : List ArduinoString) (buf : Option Nat) (size : Nat)
    (pre0 : List Event) (i : Nat) (hi : i < fr.length) (l0 : TickLog) (logs : List TickLog)
    (h0 : l0.gate = true →
      l0.events = pre0 ++ drawEvents fr[i] buf size l0.env.dispW l0.env.dispH ∧
      l0.after.idx = (i + 1) % fr.length)
    (hrest : CyclesFrom fr buf size (fun _ => [])
      (if l0.gate then (i + 1) % fr.length else i) logs) :
    CyclesFrom fr buf size (fun j => if j = 0 then pre0 else []) i (l0 :: logs) := by
  intro j hj hg
  cases j with
  | zero =>
    have hg0 : l0.gate = true := hg
    refine ⟨0, fr[i], ?_, ?_, ?_, ?_⟩
    · simp [gateCount, hg0]
    · rw [Nat.add_zero, Nat.mod_eq_of_lt hi]
      exact List.getElem?_eq_getElem hi
    · exact (h0 hg0).1
    · exact (h0 hg0).2
  | succ j =>
    have hj' : j < logs.length := by
      simpa using hj
    have hg' : logs[j].gate = true := by
      simpa using hg
    obtain ⟨k, path, hc, hp, he, ha⟩ := hrest j hj' hg'
    by_cases hg0 : l0.gate = true
    · simp only [hg0, if_true] at hp ha
      refine ⟨k + 1, path, ?_, ?_, ?_, ?_⟩
      · simp only [gateCount] at hc ⊢
        simp [List.take_succ_cons, List.countP_cons, hg0, hc]
      · have : (i + (k + 1)) % fr.length = ((i + 1) % fr.length + k) % fr.length := by
          rw [Nat.mod_add_mod]
          congr 1
          omega
        rw [this]
        exact hp
      · simpa using he
      · have : (i + (k + 1) + 1) % fr.length = ((i + 1) % fr.length + k + 1) % fr.length := by
          rw [Nat.add_assoc ((i + 1) % fr.length), Nat.mod_add_mod]
          congr 1
          omega
        rw [this]
        simpa using ha
    · have hg0' : l0.gate = false := by simpa using hg0
      simp only [hg0', Bool.false_eq_true, if_false] at hp ha
      refine ⟨k, path, ?_, hp, ?_, ?_⟩
      · simp only [gateCount] at hc ⊢
        simp [List.take_succ_cons, List.countP_cons, hg0', hc]
      · simpa using he
      · simpa using ha

/-- Whether a tick passes the pacing check, read off the state at line 109. -/
theorem gate_of_pacingState (env : Env) (s s' : State) (events : List Event)
    (hne : (pacingState env s).frames ≠ []) :
    ({ env := env, before := s, events := events, after := s' } : TickLog).gate =
      gateOpen (wrap ULONG_BITS env.msNow) (pacingState env s) := by
  simp [TickLog.gate, hne]

/-- A run from an initialised state whose frames stay valid draws them
cyclically from the current index on. -/
theorem run_valid (fr : List ArduinoString) (buf : Option Nat) (size : Nat) :
    ∀ (envs : List Env) (s : State), s.initialized = true → s.frames = fr → s.buf = buf →
      s.expectedSize = size → s.idx < fr.length →
      (∀ env ∈ envs, FramesValid env fr size) →
      ∃ logs, runTicks envs s = some logs ∧ logs.map (fun l => l.env) = envs ∧
        CyclesFrom fr buf size (fun _ => []) s.idx logs := by
  intro envs
  induction envs with
  | nil =>
    intro s _ _ _ _ _ _
    exact ⟨[], rfl, rfl, fun j hj => absurd hj (Nat.not_lt_zero j)⟩
  | cons env rest ih =>
    intro s hinit hfr hbuf hsize hidx hvalid
    subst hfr hbuf hsize
    have hplay := playBlock_valid env s hidx (hvalid env (List.mem_cons_self _ _))
    have hps := pacingState_of_initialized env s hinit
    have hne : s.frames ≠ [] :=
      List.ne_nil_of_length_pos (Nat.lt_of_le_of_lt (Nat.zero_le _) hidx)
    by_cases hg : gateOpen (wrap ULONG_BITS env.msNow) s = true
    · rw [if_pos hg] at hplay
      have hmod : (s.idx + 1) % s.frames.length < s.frames.length :=
        Nat.mod_lt _ (Nat.lt_of_le_of_lt (Nat.zero_le _) hidx)
      obtain ⟨logs, hrun, henv, hcyc⟩ :=
        ih (advance { s with lastMs := wrap ULONG_BITS env.msNow }) hinit rfl rfl rfl hmod
          (fun e he => hvalid e (List.mem_cons_of_mem _ he))
      have hh := (handler_of_initialized env s hinit).trans hplay
      have hgate := gate_of_pacingState env s
        (advance { s with lastMs := wrap ULONG_BITS env.msNow })
        (drawEvents s.frames[s.idx] s.buf s.expectedSize env.dispW env.dispH)
        (by rw [hps]; exact hne)
      rw [hps, hg] at hgate
      refine ⟨_, by rw [runTicks_cons env rest s _ _ hh, hrun]; rfl, by simp [henv], ?_⟩
      have := cyclesFrom_cons s.frames s.buf s.expectedSize [] s.idx hidx
        ⟨env, s, drawEvents s.frames[s.idx] s.buf s.expectedSize env.dispW env.dispH,
          advance { s with lastMs := wrap ULONG_BITS env.msNow }⟩ logs
        (fun _ => ⟨rfl, rfl⟩)
        (by rw [hgate, if_pos rfl]; exact hcyc)
      simpa using this
    · have hg' : gateOpen (wrap ULONG_BITS env.msNow) s = false := by simpa using hg
      rw [if_neg hg] at hplay
      obtain ⟨logs, hrun, henv, hcyc⟩ :=
        ih s hinit rfl rfl rfl hidx (fun e he => hvalid e (List.mem_cons_of_mem _ he))
      have hh := (handler_of_initialized env s hinit).trans hplay
      have hgate := gate_of_pacingState env s s [] (by rw [hps]; exact hne)
      rw [hps, hg'] at hgate
      refine ⟨_, by rw [runTicks_cons env rest s _ _ hh, hrun]; rfl, by simp [henv], ?_⟩
      have := cyclesFrom_cons s.frames s.buf s.expectedSize [] s.idx hidx
        ⟨env, s, [], s⟩ logs
        (fun h => by rw [hgate] at h; cases h)
        (by rw [hgate]; exact hcyc)
      simpa using this

/-! ## Claims about one tick -/

/-- C2: in an initialised state whose index designates a frame (so the frame
list is not empty), a tick whose clock reading satisfies
`now - lastMs >= frameDelayMs` returns, tries to open exactly one frame file,
the one at `frames[idx]`, and leaves `idx = (idx + 1) % frames.size()`, whatever
the file answers and however large `now - lastMs` is; the frame list is
unchanged. -/
theorem gate_open_tick_one_attempt_one_advance (env : Env) (s : State)
    (hinit : s.initialized = true) (hidx : s.idx < s.frames.length)
    (hgate : s.frameDelayMs ≤ wrapSub ULONG_BITS (wrap ULONG_BITS env.msNow) s.lastMs) :
    ∃ s' events, applicationEinkHandler env s = some (s', events) ∧
      openedFiles events = [s.frames[s.idx]] ∧
      s'.idx = (s.idx + 1) % s.frames.length ∧
      s'.frames = s.frames := by
  have hpath : s.frames[s.idx]? = some s.frames[s.idx] := List.getElem?_eq_getElem hidx
  rw [handler_of_initialized env s hinit, playBlock_gate_open env s _ hpath hgate]
  cases env.file s.frames[s.idx] with
  | none => exact ⟨_, _, rfl, rfl, rfl, rfl⟩
  | some f =>
    simp only
    split
    · split <;> exact ⟨_, _, rfl, rfl, rfl, rfl⟩
    · split <;> exact ⟨_, _, rfl, rfl, rfl, rfl⟩

/-- C2 on the two-frame sample state, with a tick at clock 1000 whose frame file
does not open. -/
theorem gate_open_tick_one_attempt_one_advance_witness :
    sampleState.initialized = true ∧ sampleState.idx < sampleState.frames.length ∧
    sampleState.frameDelayMs ≤
      wrapSub ULONG_BITS (wrap ULONG_BITS (sampleEnv 1000 none).msNow) sampleState.lastMs ∧
    ∃ s' events, applicationEinkHandler (sampleEnv 1000 none) sampleState = some (s', events) ∧
      openedFiles events = [sampleState.frames[sampleState.idx]] ∧
      s'.idx = (sampleState.idx + 1) % sampleState.frames.length ∧
      s'.frames = sampleState.frames :=
  ⟨by decide, by decide, by decide,
   gate_open_tick_one_attempt_one_advance (sampleEnv 1000 none) sampleState
     (by decide) (by decide) (by decide)⟩

/-- C4: in an initialised state whose index designates a frame (so the frame
list is not empty), a tick returns and goes on to a frame attempt exactly when
`now - lastMs >= frameDelayMs`; when it does, `lastMs` becomes `now` and the
file tried is `frames[idx]`; when it does not, the state is unchanged and the
tick makes no call at all (no file open, no draw, no refresh, no message). -/
theorem pacer_gate (env : Env) (s : State)
    (hinit : s.initialized = true) (hidx : s.idx < s.frames.length) :
    ∃ s' events, applicationEinkHandler env s = some (s', events) ∧
      (openedFiles events ≠ [] ↔
        s.frameDelayMs ≤ wrapSub ULONG_BITS (wrap ULONG_BITS env.msNow) s.lastMs) ∧
      (s.frameDelayMs ≤ wrapSub ULONG_BITS (wrap ULONG_BITS env.msNow) s.lastMs →
        s'.lastMs = wrap ULONG_BITS env.msNow ∧ openedFiles events = [s.frames[s.idx]]) ∧
      (wrapSub ULONG_BITS (wrap ULONG_BITS env.msNow) s.lastMs < s.frameDelayMs →
        s' = s ∧ events = []) := by
  by_cases hgate : s.frameDelayMs ≤ wrapSub ULONG_BITS (wrap ULONG_BITS env.msNow) s.lastMs
  · have hpath : s.frames[s.idx]? = some s.frames[s.idx] := List.getElem?_eq_getElem hidx
    have hlt : ¬ wrapSub ULONG_BITS (wrap ULONG_BITS env.msNow) s.lastMs < s.frameDelayMs :=
      Nat.not_lt.mpr hgate
    rw [handler_of_initialized env s hinit, playBlock_gate_open env s _ hpath hgate]
    cases env.file s.frames[s.idx] with
    | none =>
      exact ⟨_, _, rfl, by simp [openedFiles, hgate], fun _ => ⟨rfl, rfl⟩,
        fun h => absurd h hlt⟩
    | some f =>
      simp only
      split
      · split <;>
          exact ⟨_, _, rfl, by simp [openedFiles, hgate], fun _ => ⟨rfl, rfl⟩,
            fun h => absurd h hlt⟩
      · split <;>
          exact ⟨_, _, rfl, by simp [openedFiles, drawEvents, hgate], fun _ => ⟨rfl, rfl⟩,
            fun h => absurd h hlt⟩
  · have hlt : wrapSub ULONG_BITS (wrap ULONG_BITS env.msNow) s.lastMs < s.frameDelayMs :=
      Nat.lt_of_not_le hgate
    rw [handler_of_initialized env s hinit, playBlock_gate_closed env s hlt]
    exact ⟨s, [], rfl, by simp [openedFiles, hgate], fun h => absurd h hgate,
      fun _ => ⟨rfl, rfl⟩⟩

/-- C4 on the two-frame sample state, with a tick at clock 79, one millisecond
before the gate opens. -/
theorem pacer_gate_witness :
    sampleState.initialized = true ∧ sampleState.idx < sampleState.frames.length ∧
    ∃ s' events,
      applicationEinkHandler (sampleEnv 79 (some ⟨4000, 4000⟩)) sampleState =
        some (s', events) ∧
      (openedFiles events ≠ [] ↔
        sampleState.frameDelayMs ≤
          wrapSub ULONG_BITS (wrap ULONG_BITS (sampleEnv 79 (some ⟨4000, 4000⟩)).msNow)
            sampleState.lastMs) ∧
      (sampleState.frameDelayMs ≤
          wrapSub ULONG_BITS (wrap ULONG_BITS (sampleEnv 79 (some ⟨4000, 4000⟩)).msNow)
            sampleState.lastMs →
        s'.lastMs = wrap ULONG_BITS (sampleEnv 79 (some ⟨4000, 4000⟩)).msNow ∧
        openedFiles events = [sampleState.frames[sampleState.idx]]) ∧
      (wrapSub ULONG_BITS (wrap ULONG_BITS (sampleEnv 79 (some ⟨4000, 4000⟩)).msNow)
          sampleState.lastMs < sampleState.frameDelayMs →
        s' = sampleState ∧ events = []) :=
  ⟨by decide, by decide,
   pacer_gate (sampleEnv 79 (some ⟨4000, 4000⟩)) sampleState (by decide) (by decide)⟩

/-- C5: a tick that starts with a valid index returns, and its calls on the
display are exactly one draw sequence (set full window, fill screen,
`drawBitmap` from the buffer, refresh), issued last and in this order, when
the state at line 109 is initialised with a non-empty frame list, the pacing
gate is open, the current frame file opens, its size equals `expectedSize` and
the read returns `expectedSize` bytes; otherwise the tick makes no call on the
display at all. The state at line 109 is the state the tick started in when
that was initialised. -/
theorem draw_iff_full_success (env : Env) (s : State) (hv : s.IndexValid) :
    ∃ s' events, applicationEinkHandler env s = some (s', events) ∧
      (events.filter Event.isDisplayCall =
          drawSequence (pacingState env s).buf env.dispW env.dispH ↔
        FullSuccess env (pacingState env s)) ∧
      (events.filter Event.isDisplayCall = [] ↔ ¬ FullSuccess env (pacingState env s)) ∧
      (FullSuccess env (pacingState env s) →
        drawSequence (pacingState env s).buf env.dispW env.dispH <:+ events) ∧
      (s.initialized = true → pacingState env s = s) := by
  have hvp := pacingState_indexValid env s hv
  have hdisp := displayCalls_initBlock env (expectedOf env.dispW env.dispH) s
  by_cases hne : (pacingState env s).frames = []
  · have hno : ¬ FullSuccess env (pacingState env s) := fun h => h.2.1 hne
    refine ⟨_, _, handler_of_frames_nil env s hne, ?_, ?_, fun h => absurd h hno,
      pacingState_of_initialized env s⟩
    · simp [hdisp, hno, drawSequence]
    · simp [hdisp, hno]
  · obtain ⟨path, hpath⟩ := current_of_indexValid _ hvp hne
    by_cases hgate : (pacingState env s).frameDelayMs ≤
        wrapSub ULONG_BITS (wrap ULONG_BITS env.msNow) (pacingState env s).lastMs
    · obtain ⟨hh, hp⟩ := handler_gate_open env s path hpath hgate
      rw [hh, hp]
      cases hf : env.file path with
      | none =>
        have hno : ¬ FullSuccess env (pacingState env s) := by
          rintro ⟨_, _, _, q, f, hq, hfq, _, _⟩
          rw [hpath] at hq
          cases hq
          rw [hf] at hfq
          cases hfq
        refine ⟨_, _, rfl, ?_, ?_, fun h => absurd h hno, pacingState_of_initialized env s⟩
        · simp [hdisp, hno, drawSequence, Event.isDisplayCall]
        · simp [hdisp, hno, Event.isDisplayCall]
      | some f =>
        simp only
        by_cases hsz : f.size = (pacingState env s).expectedSize
        · by_cases hrd : f.readBytes = (pacingState env s).expectedSize
          · have hyes : FullSuccess env (pacingState env s) :=
              ⟨pacingState_initialized env s, hne, hgate, path, f, hpath, hf, hsz, hrd⟩
            simp only [hsz, hrd, ne_eq, not_true_eq_false, if_false, Option.map_some']
            refine ⟨_, _, rfl, ?_, ?_, fun _ => ?_, pacingState_of_initialized env s⟩
            · simp [hdisp, hyes, drawSequence, drawEvents, Event.isDisplayCall]
            · simp [hdisp, hyes, drawEvents, Event.isDisplayCall]
            · exact ⟨(initBlock env (expectedOf env.dispW env.dispH) s).events ++
                [Event.openFile path,
                Event.read (pacingState env s).buf (pacingState env s).expectedSize,
                Event.closeFile], by simp [drawSequence, drawEvents]⟩
          · have hno : ¬ FullSuccess env (pacingState env s) := by
              rintro ⟨_, _, _, q, g, hq, hfq, _, hr⟩
              rw [hpath] at hq
              cases hq
              rw [hf] at hfq
              cases hfq
              exact hrd hr
            simp only [hsz, hrd, ne_eq, not_true_eq_false, not_false_eq_true, if_false,
              if_true, Option.map_some']
            refine ⟨_, _, rfl, ?_, ?_, fun h => absurd h hno,
              pacingState_of_initialized env s⟩
            · simp [hdisp, hno, drawSequence, Event.isDisplayCall]
            · simp [hdisp, hno, Event.isDisplayCall]
        · have hno : ¬ FullSuccess env (pacingState env s) := by
            rintro ⟨_, _, _, q, g, hq, hfq, hs, _⟩
            rw [hpath] at hq
            cases hq
            rw [hf] at hfq
            cases hfq
            exact hsz hs
          simp only [hsz, ne_eq, not_false_eq_true, if_true]
          split
          · refine ⟨_, _, rfl, ?_, ?_, fun h => absurd h hno,
              pacingState_of_initialized env s⟩
            · simp [hdisp, hno, drawSequence, Event.isDisplayCall]
            · simp [hdisp, hno, Event.isDisplayCall]
          · refine ⟨_, _, rfl, ?_, ?_, fun h => absurd h hno,
              pacingState_of_initialized env s⟩
            · simp [hdisp, hno, drawSequence, Event.isDisplayCall]
            · simp [hdisp, hno, Event.isDisplayCall]
    · have hno : ¬ FullSuccess env (pacingState env s) := fun h => hgate h.2.2.1
      rw [handler_of_frames_ne env s hne,
        playBlock_gate_closed env _ (Nat.lt_of_not_le hgate)]
      refine ⟨_, _, rfl, ?_, ?_, fun h => absurd h hno, pacingState_of_initialized env s⟩
      · simp [hdisp, hno, drawSequence]
      · simp [hdisp, hno]

/-- C5 on the two-frame sample state, with a tick at clock 80 whose frame file
is valid. -/
theorem draw_iff_full_success_witness :
    sampleState.IndexValid ∧
    ∃ s' events,
      applicationEinkHandler (sampleEnv 80 (some ⟨4000, 4000⟩)) sampleState =
        some (s', events) ∧
      (events.filter Event.isDisplayCall =
          drawSequence (pacingState (sampleEnv 80 (some ⟨4000, 4000⟩)) sampleState).buf
            (sampleEnv 80 (some ⟨4000, 4000⟩)).dispW
            (sampleEnv 80 (some ⟨4000, 4000⟩)).dispH ↔
        FullSuccess (sampleEnv 80 (some ⟨4000, 4000⟩))
          (pacingState (sampleEnv 80 (some ⟨4000, 4000⟩)) sampleState)) ∧
      (events.filter Event.isDisplayCall = [] ↔
        ¬ FullSuccess (sampleEnv 80 (some ⟨4000, 4000⟩))
          (pacingState (sampleEnv 80 (some ⟨4000, 4000⟩)) sampleState)) ∧
      (FullSuccess (sampleEnv 80 (some ⟨4000, 4000⟩))
          (pacingState (sampleEnv 80 (some ⟨4000, 4000⟩)) sampleState) →
        drawSequence (pacingState (sampleEnv 80 (some ⟨4000, 4000⟩)) sampleState).buf
          (sampleEnv 80 (some ⟨4000, 4000⟩)).dispW
          (sampleEnv 80 (some ⟨4000, 4000⟩)).dispH <:+ events) ∧
      (sampleState.initialized = true →
        pacingState (sampleEnv 80 (some ⟨4000, 4000⟩)) sampleState = sampleState) :=
  ⟨Or.inr (by decide),
   draw_iff_full_success (sampleEnv 80 (some ⟨4000, 4000⟩)) sampleState (Or.inr (by decide))⟩

/-- C6: a tick that reaches the pacing check in state `p` (the state it
started in, when that was initialised) with the gate open and whose current
frame file `p.frames[p.idx]` opens with a size other than `p.expectedSize`
returns without any call on the display (no fill, draw or refresh) and without
any read into the buffer; that file is the only one it opens, and it leaves
`idx = (p.idx + 1) % p.frames.size()`. -/
theorem size_mismatch_skips_and_advances (env : Env) (s : State) (path : ArduinoString)
    (f : FileResp)
    (hpath : (pacingState env s).frames[(pacingState env s).idx]? = some path)
    (hgate : (pacingState env s).frameDelayMs ≤
      wrapSub ULONG_BITS (wrap ULONG_BITS env.msNow) (pacingState env s).lastMs)
    (hfile : env.file path = some f) (hsize : f.size ≠ (pacingState env s).expectedSize) :
    ∃ s' events, applicationEinkHandler env s = some (s', events) ∧
      events.filter Event.isDisplayCall = [] ∧
      events.filter Event.isRead = [] ∧
      openedFiles events = [path] ∧
      s'.idx = ((pacingState env s).idx + 1) % (pacingState env s).frames.length := by
  obtain ⟨hh, hp⟩ := handler_gate_open env s path hpath hgate
  have hdisp := displayCalls_initBlock env (expectedOf env.dispW env.dispH) s
  have hread := reads_initBlock env (expectedOf env.dispW env.dispH) s
  have hopen := openedFiles_initBlock env (expectedOf env.dispW env.dispH) s
  rw [hh, hp, hfile]
  simp only [hsize, ne_eq, not_false_eq_true, if_true]
  split
  · refine ⟨_, _, rfl, ?_, ?_, ?_, rfl⟩
    · simp [hdisp, Event.isDisplayCall]
    · simp [hread, Event.isRead]
    · simp [openedFiles_append, hopen, openedFiles]
  · refine ⟨_, _, rfl, ?_, ?_, ?_, rfl⟩
    · simp [hdisp, Event.isDisplayCall]
    · simp [hread, Event.isRead]
    · simp [openedFiles_append, hopen, openedFiles]

/-- C6 on the two-frame sample state, with a tick at clock 80 whose frame file
has 3999 bytes instead of 4000. -/
theorem size_mismatch_skips_and_advances_witness :
    (pacingState (sampleEnv 80 (some ⟨3999, 3999⟩)) sampleState).frames[
        (pacingState (sampleEnv 80 (some ⟨3999, 3999⟩)) sampleState).idx]? =
      some (examplePath 1) ∧
    (pacingState (sampleEnv 80 (some ⟨3999, 3999⟩)) sampleState).frameDelayMs ≤
      wrapSub ULONG_BITS (wrap ULONG_BITS (sampleEnv 80 (some ⟨3999, 3999⟩)).msNow)
        (pacingState (sampleEnv 80 (some ⟨3999, 3999⟩)) sampleState).lastMs ∧
    (sampleEnv 80 (some ⟨3999, 3999⟩)).file (examplePath 1) = some ⟨3999, 3999⟩ ∧
    (⟨3999, 3999⟩ : FileResp).size ≠
      (pacingState (sampleEnv 80 (some ⟨3999, 3999⟩)) sampleState).expectedSize ∧
    ∃ s' events,
      applicationEinkHandler (sampleEnv 80 (some ⟨3999, 3999⟩)) sampleState =
        some (s', events) ∧
      events.filter Event.isDisplayCall = [] ∧
      events.filter Event.isRead = [] ∧
      openedFiles events = [examplePath 1] ∧
      s'.idx = ((pacingState (sampleEnv 80 (some ⟨3999, 3999⟩)) sampleState).idx + 1) %
        (pacingState (sampleEnv 80 (some ⟨3999, 3999⟩)) sampleState).frames.length :=
  ⟨by decide, by decide, by decide, by decide,
   size_mismatch_skips_and_advances (sampleEnv 80 (some ⟨3999, 3999⟩)) sampleState
     (examplePath 1) ⟨3999, 3999⟩ (by decide) (by decide) (by decide) (by decide)⟩

/-- C3, as the code has it: in an initialised state whose index designates a
frame, when a tick at clock reading `now1` passes the pacing gate (so that
`lastMs` becomes `now1`) and the next tick reads `now2` with
`now2 - now1 < frameDelayMs`, the first tick returns and the second tick
returns the state unchanged with no call at all: no index advance and no
frame open or read. -/
theorem no_advance_within_interval_of_accepted_tick (e1 e2 : Env) (s : State)
    (hinit : s.initialized = true) (hidx : s.idx < s.frames.length)
    (hgate1 : s.frameDelayMs ≤ wrapSub ULONG_BITS (wrap ULONG_BITS e1.msNow) s.lastMs)
    (hclose : wrapSub ULONG_BITS (wrap ULONG_BITS e2.msNow) (wrap ULONG_BITS e1.msNow) <
      s.frameDelayMs) :
    ∃ s1 events1, applicationEinkHandler e1 s = some (s1, events1) ∧
      applicationEinkHandler e2 s1 = some (s1, []) := by
  have hpath : s.frames[s.idx]? = some s.frames[s.idx] := List.getElem?_eq_getElem hidx
  obtain ⟨s1, ev1, h1, hi1, -, -, hl1, hd1, -⟩ :=
    playBlock_gate_open_state e1 s _ hpath hgate1
  refine ⟨s1, ev1, by rw [handler_of_initialized e1 s hinit, h1], ?_⟩
  rw [handler_of_initialized e2 s1 (hi1.trans hinit)]
  apply playBlock_gate_closed
  rw [hl1, hd1]
  exact hclose

/-- C3 as amended, on the two-frame sample state with ticks at clock 80
(accepted) and 159. -/
theorem no_advance_within_interval_of_accepted_tick_witness :
    sampleState.initialized = true ∧ sampleState.idx < sampleState.frames.length ∧
    sampleState.frameDelayMs ≤
      wrapSub ULONG_BITS (wrap ULONG_BITS (sampleEnv 80 none).msNow) sampleState.lastMs ∧
    wrapSub ULONG_BITS (wrap ULONG_BITS (sampleEnv 159 none).msNow)
      (wrap ULONG_BITS (sampleEnv 80 none).msNow) < sampleState.frameDelayMs ∧
    ∃ s1 events1, applicationEinkHandler (sampleEnv 80 none) sampleState = some (s1, events1) ∧
      applicationEinkHandler (sampleEnv 159 none) s1 = some (s1, []) :=
  ⟨by decide, by decide, by decide, by decide,
   no_advance_within_interval_of_accepted_tick (sampleEnv 80 none) (sampleEnv 159 none)
     sampleState (by decide) (by decide) (by decide) (by decide)⟩

/-- C3 fails as stated: a session of two frames loaded at clock 0, then ticks
at clock readings 79 and 80. The tick at 79 is a gate-closed no-op that leaves
`lastMs = 0`; the tick at 80 comes `80 - 79 = 1 < 80` ms after it, yet it opens
the first frame and advances `idx` from 0 to 1. Each tick is listed with its
clock reading, `lastMs` and `idx` before it, `idx` after it, and the files it
opens. -/
theorem no_advance_within_interval_counterexample :
    (runTicks [sampleEnv 0 (some ⟨4000, 4000⟩), sampleEnv 79 (some ⟨4000, 4000⟩),
        sampleEnv 80 (some ⟨4000, 4000⟩)] initialState).map
      (fun logs => logs.map fun l =>
        (l.env.msNow, l.before.lastMs, l.before.idx, l.after.idx, openedFiles l.events)) =
      some [(0, 0, 0, 0, []), (79, 0, 0, 0, []), (80, 0, 0, 1, [examplePath 1])] ∧
    (runTicks [sampleEnv 0 (some ⟨4000, 4000⟩)] initialState).map
      (fun logs => logs.map fun l => l.after) = some [sampleState] ∧
    wrapSub ULONG_BITS (wrap ULONG_BITS 80) (wrap ULONG_BITS 79) < 80 :=
  ⟨by rfl, by rfl, by decide⟩

/-! ## Claims about runs of a loaded session -/

/-- C1: take a frame folder that lists `N >= 1` files, an initialising tick on
which `malloc` succeeds, and any further ticks, such that on every tick every
frame file opens with `expectedSize` bytes and is read in full. Then the run
completes, and the tick that is the `k`-th to pass the pacing check
(`k = 1, 2, ...`, the check of the initialising tick included, which comes after
its initialisation) opens, reads and draws the frame at position `(k - 1) % N`
of the sorted path list and nothing else, and leaves `idx = k % N`; so after
position `N - 1` comes position 0. -/
theorem cyclic_play_order (e0 : Env) (rest : List Env) (entries : List DirEntry)
    (hdir : e0.dir = some entries) (hfile : ∃ e ∈ entries, e.isDirectory = false)
    (hmalloc : e0.mallocOk = true)
    (hvalid : ∀ env ∈ e0 :: rest,
      FramesValid env (scanEntries entries) (expectedOf e0.dispW e0.dispH)) :
    ∃ logs, runTicks (e0 :: rest) initialState = some logs ∧
      logs.map (fun l => l.env) = e0 :: rest ∧
      ∀ j (hj : j < logs.length), logs[j].gate = true →
        ∃ path,
          (stdSort frameLess (scanEntries entries))[
              (gateCount (logs.take (j + 1)) - 1) % (scanEntries entries).length]? =
            some path ∧
          logs[j].events =
            (if j = 0 then loadedEvents (expectedOf e0.dispW e0.dispH) else []) ++
              drawEvents path (some (expectedOf e0.dispW e0.dispH))
                (expectedOf e0.dispW e0.dispH) logs[j].env.dispW logs[j].env.dispH ∧
          logs[j].after.idx =
            gateCount (logs.take (j + 1)) % (scanEntries entries).length := by
  have hs : scanEntries entries ≠ [] := by
    intro h
    obtain ⟨e, he, hd⟩ := hfile
    have := (scanEntries_eq_nil_iff entries).mp h e he
    rw [hd] at this
    cases this
  have hb := initBlock_loaded e0 (expectedOf e0.dispW e0.dispH) initialState entries rfl
    hdir hs hmalloc
  have hp : pacingState e0 initialState = _ := congrArg InitOutcome.state hb
  have hev : (initBlock e0 (expectedOf e0.dispW e0.dispH) initialState).events = _ :=
    congrArg InitOutcome.events hb
  have hpf : (pacingState e0 initialState).frames = stdSort frameLess (scanEntries entries) := by
    rw [hp]
  have hpi : (pacingState e0 initialState).idx = 0 := by rw [hp]
  have hpb : (pacingState e0 initialState).buf = some (expectedOf e0.dispW e0.dispH) := by
    rw [hp]
  have hpe : (pacingState e0 initialState).expectedSize = expectedOf e0.dispW e0.dispH := by
    rw [hp]
  have hne : stdSort frameLess (scanEntries entries) ≠ [] := stdSort_ne_nil _ _ hs
  have hlen : 0 < (stdSort frameLess (scanEntries entries)).length := List.length_pos.mpr hne
  have hvalid' : ∀ env ∈ e0 :: rest,
      FramesValid env (stdSort frameLess (scanEntries entries))
        (expectedOf e0.dispW e0.dispH) :=
    fun env he path hpath => hvalid env he path ((mem_stdSort _ _ _).mp hpath)
  have hidx : (pacingState e0 initialState).idx < (pacingState e0 initialState).frames.length := by
    rw [hpi, hpf]
    exact hlen
  have hplay := playBlock_valid e0 (pacingState e0 initialState) hidx
    (by rw [hpf, hpe]; exact hvalid' e0 (List.mem_cons_self _ _))
  have hh := handler_of_frames_ne e0 initialState (by rw [hpf]; exact hne)
  have hinit := pacingState_initialized e0 initialState
  have key : ∃ logs, runTicks (e0 :: rest) initialState = some logs ∧
      logs.map (fun l => l.env) = e0 :: rest ∧
      CyclesFrom (stdSort frameLess (scanEntries entries))
        (some (expectedOf e0.dispW e0.dispH)) (expectedOf e0.dispW e0.dispH)
        (fun j => if j = 0 then loadedEvents (expectedOf e0.dispW e0.dispH) else []) 0 logs := by
    by_cases hg : gateOpen (wrap ULONG_BITS e0.msNow) (pacingState e0 initialState) = true
    · rw [if_pos hg] at hplay
      rw [hplay, hev] at hh
      have hmod : (0 + 1) % (stdSort frameLess (scanEntries entries)).length <
          (stdSort frameLess (scanEntries entries)).length := Nat.mod_lt _ hlen
      obtain ⟨logs, hrun, henv, hcyc⟩ :=
        run_valid (stdSort frameLess (scanEntries entries))
          (some (expectedOf e0.dispW e0.dispH)) (expectedOf e0.dispW e0.dispH) rest
          (advance { pacingState e0 initialState with lastMs := wrap ULONG_BITS e0.msNow })
          hinit hpf hpb hpe (by simpa [advance, hpf, hpi] using hmod)
          (fun e he => hvalid' e (List.mem_cons_of_mem _ he))
      have hgate := gate_of_pacingState e0 initialState
        (advance { pacingState e0 initialState with lastMs := wrap ULONG_BITS e0.msNow })
        (loadedEvents (expectedOf e0.dispW e0.dispH) ++
          drawEvents (pacingState e0 initialState).frames[(pacingState e0 initialState).idx]
            (pacingState e0 initialState).buf (pacingState e0 initialState).expectedSize
            e0.dispW e0.dispH)
        (by rw [hpf]; exact hne)
      rw [hg] at hgate
      refine ⟨_, by rw [runTicks_cons e0 rest initialState _ _ hh, hrun]; rfl,
        by simp [henv], ?_⟩
      refine cyclesFrom_cons _ _ _ _ 0 hlen _ logs (fun _ => ⟨?_, ?_⟩) ?_
      · simp only [hpb, hpe]
        congr 2
        simp [hpf, hpi]
      · simp [advance, hpf, hpi]
      · rw [hgate, if_pos rfl]
        simpa [advance, hpf, hpi] using hcyc
    · have hg' : gateOpen (wrap ULONG_BITS e0.msNow) (pacingState e0 initialState) = false := by
        simpa using hg
      rw [if_neg hg] at hplay
      rw [hplay, hev] at hh
      obtain ⟨logs, hrun, henv, hcyc⟩ :=
        run_valid (stdSort frameLess (scanEntries entries))
          (some (expectedOf e0.dispW e0.dispH)) (expectedOf e0.dispW e0.dispH) rest
          (pacingState e0 initialState) hinit hpf hpb hpe (by rw [hpi]; exact hlen)
          (fun e he => hvalid' e (List.mem_cons_of_mem _ he))
      have hgate := gate_of_pacingState e0 initialState (pacingState e0 initialState)
        (loadedEvents (expectedOf e0.dispW e0.dispH) ++ []) (by rw [hpf]; exact hne)
      rw [hg'] at hgate
      refine ⟨_, by rw [runTicks_cons e0 rest initialState _ _ hh, hrun]; rfl,
        by simp [henv], ?_⟩
      refine cyclesFrom_cons _ _ _ _ 0 hlen _ logs (fun h => ?_) ?_
      · rw [hgate] at h
        cases h
      · rw [hgate]
        simpa [hpi] using hcyc
  obtain ⟨logs, hrun, henv, hcyc⟩ := key
  refine ⟨logs, hrun, henv, fun j hj hg => ?_⟩
  obtain ⟨k, path, hc, hpath, hevents, hafter⟩ := hcyc j hj hg
  rw [length_stdSort] at hpath hafter
  refine ⟨path, ?_, hevents, ?_⟩
  · rw [hc, Nat.add_sub_cancel]
    simpa using hpath
  · rw [hc, hafter]
    congr 1
    omega

/-- C1 on the example scenario: ten files of 4000 bytes, a 160x200 display, the
initialising tick at clock 0 and ticks at 80, 160, ..., 880. The last component
lists, for each tick, its clock reading, whether it passed the pacing check,
the files it opened, its display calls and `idx` after it: the ticks at 80 to
800 draw `0001.bin` to `0010.bin`, `idx` ends at 0, and the tick at 880 draws
`0001.bin` again. -/
theorem cyclic_play_order_witness :
    (exampleEnv 0).dir = some exampleListing ∧
    (∃ e ∈ exampleListing, e.isDirectory = false) ∧
    (exampleEnv 0).mallocOk = true ∧
    (∀ env ∈ exampleEnv 0 :: exampleLaterTicks,
      FramesValid env (scanEntries exampleListing)
        (expectedOf (exampleEnv 0).dispW (exampleEnv 0).dispH)) ∧
    (∃ logs, runTicks (exampleEnv 0 :: exampleLaterTicks) initialState = some logs ∧
      logs.map (fun l => l.env) = exampleEnv 0 :: exampleLaterTicks ∧
      ∀ j (hj : j < logs.length), logs[j].gate = true →
        ∃ path,
          (stdSort frameLess (scanEntries exampleListing))[
              (gateCount (logs.take (j + 1)) - 1) % (scanEntries exampleListing).length]? =
            some path ∧
          logs[j].events =
            (if j = 0 then loadedEvents (expectedOf (exampleEnv 0).dispW (exampleEnv 0).dispH)
              else []) ++
              drawEvents path (some (expectedOf (exampleEnv 0).dispW (exampleEnv 0).dispH))
                (expectedOf (exampleEnv 0).dispW (exampleEnv 0).dispH)
                logs[j].env.dispW logs[j].env.dispH ∧
          logs[j].after.idx =
            gateCount (logs.take (j + 1)) % (scanEntries exampleListing).length) ∧
    (runTicks (exampleEnv 0 :: exampleLaterTicks) initialState).map
      (fun logs => logs.map fun l =>
        (l.env.msNow, l.gate, openedFiles l.events,
          l.events.filter Event.isDisplayCall, l.after.idx)) =
      some [(0, false, [], [], 0),
        (80, true, [examplePath 1], drawSequence (some 4000) 160 200, 1),
        (160, true, [examplePath 2], drawSequence (some 4000) 160 200, 2),
        (240, true, [examplePath 3], drawSequence (some 4000) 160 200, 3),
        (320, true, [examplePath 4], drawSequence (some 4000) 160 200, 4),
        (400, true, [examplePath 5], drawSequence (some 4000) 160 200, 5),
        (480, true, [examplePath 6], drawSequence (some 4000) 160 200, 6),
        (560, true, [examplePath 7], drawSequence (some 4000) 160 200, 7),
        (640, true, [examplePath 8], drawSequence (some 4000) 160 200, 8),
        (720, true, [examplePath 9], drawSequence (some 4000) 160 200, 9),
        (800, true, [examplePath 10], drawSequence (some 4000) 160 200, 0),
        (880, true, [examplePath 1], drawSequence (some 4000) 160 200, 1)] :=
  have hvalid : ∀ env ∈ exampleEnv 0 :: exampleLaterTicks,
      FramesValid env (scanEntries exampleListing)
        (expectedOf (exampleEnv 0).dispW (exampleEnv 0).dispH) := by
    intro env he path _
    have hfile : env.file = fun _ => some { size := 4000, readBytes := 4000 } := by
      simp only [List.mem_cons, exampleLaterTicks, List.mem_map] at he
      rcases he with rfl | ⟨i, -, rfl⟩ <;> rfl
    rw [hfile]
    exact ⟨_, rfl, by decide, by decide⟩
  ⟨rfl, by decide, rfl, hvalid,
   cyclic_play_order (exampleEnv 0) exampleLaterTicks exampleListing rfl (by decide) rfl
     hvalid,
   by rfl⟩

/-! ## The one-shot size warning -/

/-- The initialisation block leaves `warnedSize` false when it runs, and as it
was when it is skipped. -/
theorem pacingState_warnedSize (env : Env) (s : State) :
    (pacingState env s).warnedSize = (s.initialized && s.warnedSize) := by
  unfold pacingState
  rcases initBlock_cases env (expectedOf env.dispW env.dispH) s with
    ⟨hi, he⟩ | ⟨hi, _, he⟩ | ⟨_, hi, _, _, he⟩ | ⟨_, hi, _, _, _, he⟩ |
    ⟨_, hi, _, _, _, he⟩ <;> rw [he] <;> simp [hi]

/-- One tick from a state with a valid index: it returns, the state stays
initialised with a valid index, the size warning is shown exactly when the tick
meets a mismatched frame while `warnedSize` is still false, and `warnedSize`
afterwards records whether it was set before or the tick met a mismatch. -/
theorem tick_warning (env : Env) (s : State) (hv : s.IndexValid) :
    ∃ s' events, applicationEinkHandler env s = some (s', events) ∧
      s'.initialized = true ∧ s'.IndexValid ∧
      sizeWarnings events =
        (if (({ env := env, before := s, events := events, after := s' } : TickLog).mismatch
            && !(s.initialized && s.warnedSize)) = true then 1 else 0) ∧
      s'.warnedSize = ((s.initialized && s.warnedSize) ||
        ({ env := env, before := s, events := events, after := s' } : TickLog).mismatch) := by
  have hvp := pacingState_indexValid env s hv
  have hw := pacingState_warnedSize env s
  have hpi := pacingState_initialized env s
  have hwi := warnings_initBlock env (expectedOf env.dispW env.dispH) s
  by_cases hne : (pacingState env s).frames = []
  · refine ⟨_, _, handler_of_frames_nil env s hne, hpi, hvp, ?_, ?_⟩
    · simp [sizeWarnings, hwi, TickLog.mismatch, TickLog.gate, hne]
    · simp [hw, TickLog.mismatch, TickLog.gate, hne]
  · obtain ⟨path, hpath⟩ := current_of_indexValid _ hvp hne
    have hlen : 0 < (pacingState env s).frames.length := List.length_pos.mpr hne
    have hadv : ∀ q : State, q.frames = (pacingState env s).frames → (advance q).IndexValid :=
      fun q hq => Or.inr (by
        simp only [advance, hq]
        exact Nat.mod_lt _ hlen)
    by_cases hgate : (pacingState env s).frameDelayMs ≤
        wrapSub ULONG_BITS (wrap ULONG_BITS env.msNow) (pacingState env s).lastMs
    · obtain ⟨hh, hp⟩ := handler_gate_open env s path hpath hgate
      have hg : gateOpen (wrap ULONG_BITS env.msNow) (pacingState env s) = true := by
        simp [gateOpen, hgate]
      rw [hh, hp]
      cases hf : env.file path with
      | none =>
        refine ⟨_, _, rfl, hpi, hadv _ rfl, ?_, ?_⟩
        · simp [sizeWarnings, messages_append, hwi, messages, TickLog.mismatch, hpath, hf]
        · simp [advance, hw, TickLog.mismatch, hpath, hf]
      | some f =>
        simp only
        by_cases hsz : f.size = (pacingState env s).expectedSize
        · simp only [hsz, ne_eq, not_true_eq_false, if_false]
          split
          · refine ⟨_, _, rfl, hpi, hadv _ rfl, ?_, ?_⟩
            · simp [sizeWarnings, messages_append, hwi, messages, TickLog.mismatch, hpath,
                hf, hsz]
            · simp [advance, hw, TickLog.mismatch, hpath, hf, hsz]
          · refine ⟨_, _, rfl, hpi, hadv _ rfl, ?_, ?_⟩
            · simp [sizeWarnings, messages_append, hwi, messages, TickLog.mismatch, hpath,
                hf, hsz, drawEvents]
            · simp [advance, hw, TickLog.mismatch, hpath, hf, hsz]
        · simp only [hsz, ne_eq, not_false_eq_true, if_true]
          cases hws : (pacingState env s).warnedSize with
          | false =>
            rw [hws] at hw
            refine ⟨_, _, rfl, hpi, hadv _ rfl, ?_, ?_⟩
            · simp [sizeWarnings, messages_append, hwi, messages, TickLog.mismatch,
                TickLog.gate, hne, hg, hpath, hf, hsz, ← hw]
            · simp [advance, TickLog.mismatch, TickLog.gate, hne, hg, hpath, hf, hsz]
          | true =>
            rw [hws] at hw
            refine ⟨_, _, rfl, hpi, hadv _ rfl, ?_, ?_⟩
            · simp [sizeWarnings, messages_append, hwi, messages, TickLog.mismatch,
                TickLog.gate, hne, hg, hpath, hf, hsz, ← hw]
            · simp [advance, hws, TickLog.mismatch, TickLog.gate, hne, hg, hpath, hf, hsz]
    · have hlt := Nat.lt_of_not_le hgate
      have hg : gateOpen (wrap ULONG_BITS env.msNow) (pacingState env s) = false := by
        simp [gateOpen, hlt]
      rw [handler_of_frames_ne env s hne, playBlock_gate_closed env _ hlt]
      refine ⟨_, _, rfl, hpi, hvp, ?_, ?_⟩
      · simp [sizeWarnings, hwi, TickLog.mismatch, TickLog.gate, hg]
      · simp [hw, TickLog.mismatch, TickLog.gate, hg]

theorem warning_step (m m0 w rest : Bool) :
    (if (m && rest && !(true && (w || m0))) = true then 1 else 0) =
      if (m && (!m0 && rest) && !w) = true then 1 else 0 := by
  cases m <;> cases m0 <;> cases w <;> cases rest <;> rfl

theorem warning_sum (m0 w later : Bool) :
    ((if (m0 && !w) = true then 1 else 0) +
        if (later && !(true && (w || m0))) = true then 1 else 0) =
      if ((m0 || later) && !w) = true then 1 else 0 := by
  cases m0 <;> cases w <;> cases later <;> rfl

/-- Every run from a state with a valid index completes; the size warning is
shown by the first tick that meets a mismatched frame, provided `warnedSize`
was not already set, and by no other tick. -/
theorem run_warning : ∀ (envs : List Env) (s : State), s.IndexValid →
    ∃ logs, runTicks envs s = some logs ∧ logs.map (fun l => l.env) = envs ∧
      (∀ j (hj : j < logs.length), sizeWarnings logs[j].events =
        if (logs[j].mismatch && (logs.take j).all (fun l => !l.mismatch) &&
            !(s.initialized && s.warnedSize)) = true then 1 else 0) ∧
      (logs.map fun l => sizeWarnings l.events).sum =
        (if (logs.any TickLog.mismatch && !(s.initialized && s.warnedSize)) = true
          then 1 else 0) ∧
      (∀ l ∈ logs, l.before.initialized = true → l.before.warnedSize = true →
        l.after.warnedSize = true) := by
  intro envs
  induction envs with
  | nil =>
    intro s _
    exact ⟨[], rfl, rfl, fun j hj => absurd hj (Nat.not_lt_zero j), by simp,
      fun l hl => by cases hl⟩
  | cons env rest ih =>
    intro s hv
    obtain ⟨s', events, hh, hi', hv', hc, hws⟩ := tick_warning env s hv
    obtain ⟨logs, hrun, henv, hper, hsum, hmono⟩ := ih s' hv'
    refine ⟨{ env := env, before := s, events := events, after := s' } :: logs,
      by rw [runTicks_cons env rest s s' events hh, hrun]; rfl, by simp [henv], ?_, ?_, ?_⟩
    · intro j hj
      cases j with
      | zero => simpa using hc
      | succ j =>
        have hj' : j < logs.length := by simpa using hj
        have := hper j hj'
        simp only [List.getElem_cons_succ, List.take_succ_cons, List.all_cons]
        rw [this, hi', hws]
        exact warning_step _ _ _ _
    · simp only [List.map_cons, List.sum_cons, List.any_cons]
      rw [hsum, hc, hi', hws]
      exact warning_sum _ _ _
    · intro l hl hli hlw
      rcases List.mem_cons.mp hl with rfl | hl'
      · simp only at hli hlw ⊢
        rw [hws, hli, hlw]
        rfl
      · exact hmono l hl' hli hlw

/-- C7: every run of ticks from the initial state completes; a tick shows
"Frame size mismatch" (once) exactly when it is the first tick of the run that
passes the pacing check and finds its current frame file with a size other than
`expectedSize`, so the run shows the message once if some tick meets such a
frame and never otherwise; and a tick that starts in an initialised state with
`warnedSize` true leaves it true. -/
theorem size_warning_shown_once (envs : List Env) :
    ∃ logs, runTicks envs initialState = some logs ∧ logs.map (fun l => l.env) = envs ∧
      (∀ j (hj : j < logs.length), sizeWarnings logs[j].events =
        if (logs[j].mismatch && (logs.take j).all (fun l => !l.mismatch)) = true
          then 1 else 0) ∧
      (logs.map fun l => sizeWarnings l.events).sum =
        (if logs.any TickLog.mismatch = true then 1 else 0) ∧
      (∀ l ∈ logs, l.before.initialized = true → l.before.warnedSize = true →
        l.after.warnedSize = true) := by
  obtain ⟨logs, hrun, henv, hper, hsum, hmono⟩ := run_warning envs initialState (Or.inl rfl)
  refine ⟨logs, hrun, henv, fun j hj => ?_, ?_, hmono⟩
  · simpa [initialState] using hper j hj
  · simpa [initialState] using hsum

/-! ## Claims about terminal failures -/

/-- C8: when the frame folder opens and every entry it lists is a directory,
every run of the initialising tick followed by any further ticks completes; the
first tick opens and closes the folder and shows "No BadApple frames", and every
later tick makes no call at all. So no tick calls the display or opens a frame
file, and the message is shown once, on the first tick. -/
theorem empty_folder_never_draws (e0 : Env) (rest : List Env) (entries : List DirEntry)
    (hdir : e0.dir = some entries) (hempty : ∀ e ∈ entries, e.isDirectory = true) :
    ∃ logs, runTicks (e0 :: rest) initialState = some logs ∧
      logs.map (fun l => l.events) =
        [.openDir folder, .closeDir, .oledWord "No BadApple frames"] ::
          List.replicate rest.length [] ∧
      (∀ l ∈ logs, l.events.filter Event.isDisplayCall = [] ∧ openedFiles l.events = []) ∧
      logs.map (fun l => (messages l.events).count "No BadApple frames") =
        1 :: List.replicate rest.length 0 := by
  have hs := (scanEntries_eq_nil_iff entries).mpr hempty
  have hb := initBlock_no_frames e0 (expectedOf e0.dispW e0.dispH) initialState entries rfl
    hdir hs
  have hp : (pacingState e0 initialState).frames = [] := by
    unfold pacingState
    rw [hb]
  have hh := handler_of_frames_nil e0 initialState hp
  refine ⟨_, runTicks_terminal e0 rest initialState _ _ hh
    (pacingState_initialized e0 initialState) hp, ?_, ?_, ?_⟩
  · rw [map_events_terminal (fun evs => evs), hb]
  · intro l hl
    simp only [List.mem_cons, List.mem_map] at hl
    rcases hl with rfl | ⟨e, -, rfl⟩
    · simp only [hb]
      exact ⟨rfl, rfl⟩
    · exact ⟨rfl, rfl⟩
  · rw [map_events_terminal (fun evs => (messages evs).count "No BadApple frames"), hb]
    rfl

/-- C8 on a folder that lists one subdirectory, followed by two ticks. -/
theorem empty_folder_never_draws_witness :
    ({ sampleEnv 0 none with
        dir := some [{ name := "extras".toList, isDirectory := true }] } : Env).dir =
      some [{ name := "extras".toList, isDirectory := true }] ∧
    (∀ e ∈ [({ name := "extras".toList, isDirectory := true } : DirEntry)],
      e.isDirectory = true) ∧
    ∃ logs,
      runTicks ({ sampleEnv 0 none with
          dir := some [{ name := "extras".toList, isDirectory := true }] } ::
        [exampleEnv 80, exampleEnv 160]) initialState = some logs ∧
      logs.map (fun l => l.events) =
        [.openDir folder, .closeDir, .oledWord "No BadApple frames"] ::
          List.replicate [exampleEnv 80, exampleEnv 160].length [] ∧
      (∀ l ∈ logs, l.events.filter Event.isDisplayCall = [] ∧ openedFiles l.events = []) ∧
      logs.map (fun l => (messages l.events).count "No BadApple frames") =
        1 :: List.replicate [exampleEnv 80, exampleEnv 160].length 0 :=
  ⟨rfl, by decide,
   empty_folder_never_draws _ [exampleEnv 80, exampleEnv 160]
     [{ name := "extras".toList, isDirectory := true }] rfl (by decide)⟩

/-- C9: when the frame folder lists at least one file and `malloc` fails on
the initialising tick, every run of that tick followed by any further ticks
completes; the first tick opens and closes the folder, calls `malloc`, shows
"No RAM for BadApple" and leaves the frame list empty with a null buffer; every
later tick makes no call at all and changes nothing. So no tick calls the
display, reads into the buffer or opens a frame file, and the message is shown
once. -/
theorem allocation_failure_never_draws (e0 : Env) (rest : List Env)
    (entries : List DirEntry) (hdir : e0.dir = some entries)
    (hfile : ∃ e ∈ entries, e.isDirectory = false) (hmalloc : e0.mallocOk = false) :
    ∃ logs, runTicks (e0 :: rest) initialState = some logs ∧
      logs.map (fun l => l.events) =
        [.openDir folder, .closeDir, .malloc (expectedOf e0.dispW e0.dispH),
         .oledWord "No RAM for BadApple"] :: List.replicate rest.length [] ∧
      (∀ l ∈ logs, l.after.frames = [] ∧ l.after.buf = none ∧
        l.events.filter Event.isDisplayCall = [] ∧ l.events.filter Event.isRead = [] ∧
        openedFiles l.events = []) ∧
      logs.map (fun l => (messages l.events).count "No RAM for BadApple") =
        1 :: List.replicate rest.length 0 := by
  have hs : scanEntries entries ≠ [] := by
    intro h
    obtain ⟨e, he, hd⟩ := hfile
    have := (scanEntries_eq_nil_iff entries).mp h e he
    rw [hd] at this
    cases this
  have hb := initBlock_no_ram e0 (expectedOf e0.dispW e0.dispH) initialState entries rfl
    hdir hs hmalloc
  have hp : (pacingState e0 initialState).frames = [] := by
    unfold pacingState
    rw [hb]
  have hbuf : (pacingState e0 initialState).buf = none := by
    unfold pacingState
    rw [hb]
  have hh := handler_of_frames_nil e0 initialState hp
  refine ⟨_, runTicks_terminal e0 rest initialState _ _ hh
    (pacingState_initialized e0 initialState) hp, ?_, ?_, ?_⟩
  · rw [map_events_terminal (fun evs => evs), hb]
  · intro l hl
    simp only [List.mem_cons, List.mem_map] at hl
    rcases hl with rfl | ⟨e, -, rfl⟩
    · simp only [hb]
      exact ⟨hp, hbuf, rfl, rfl, rfl⟩
    · exact ⟨hp, hbuf, rfl, rfl, rfl⟩
  · rw [map_events_terminal (fun evs => (messages evs).count "No RAM for BadApple"), hb]
    rfl

/-- C9 on the example folder with a failing `malloc`, followed by two ticks. -/
theorem allocation_failure_never_draws_witness :
    ({ exampleEnv 0 with mallocOk := false } : Env).dir = some exampleListing ∧
    (∃ e ∈ exampleListing, e.isDirectory = false) ∧
    ({ exampleEnv 0 with mallocOk := false } : Env).mallocOk = false ∧
    ∃ logs,
      runTicks ({ exampleEnv 0 with mallocOk := false } :: [exampleEnv 80, exampleEnv 160])
        initialState = some logs ∧
      logs.map (fun l => l.events) =
        [.openDir folder, .closeDir,
         .malloc (expectedOf ({ exampleEnv 0 with mallocOk := false } : Env).dispW
           ({ exampleEnv 0 with mallocOk := false } : Env).dispH),
         .oledWord "No RAM for BadApple"] ::
          List.replicate [exampleEnv 80, exampleEnv 160].length [] ∧
      (∀ l ∈ logs, l.after.frames = [] ∧ l.after.buf = none ∧
        l.events.filter Event.isDisplayCall = [] ∧ l.events.filter Event.isRead = [] ∧
        openedFiles l.events = []) ∧
      logs.map (fun l => (messages l.events).count "No RAM for BadApple") =
        1 :: List.replicate [exampleEnv 80, exampleEnv 160].length 0 :=
  ⟨rfl, by decide, rfl,
   allocation_failure_never_draws _ [exampleEnv 80, exampleEnv 160] exampleListing rfl
     (by decide) rfl⟩

/-- C10: when the frame folder does not open on the first tick, every run of
that tick followed by any further ticks completes, whatever the folder would
answer later; the first tick tries the folder once and shows
"No BadApple folder"; every later tick makes no call at all (no new attempt on
the folder, no message, no file open, no display call); and after every tick
the frame list is empty and `initialized` is true. -/
theorem directory_open_failure_is_terminal (e0 : Env) (rest : List Env)
    (hdir : e0.dir = none) :
    ∃ logs, runTicks (e0 :: rest) initialState = some logs ∧
      logs.map (fun l => l.events) =
        [.openDir folder, .oledWord "No BadApple folder"] ::
          List.replicate rest.length [] ∧
      (∀ l ∈ logs, l.after.frames = [] ∧ l.after.initialized = true) ∧
      logs.map (fun l => dirOpens l.events) = 1 :: List.replicate rest.length 0 ∧
      logs.map (fun l => messages l.events) =
        ["No BadApple folder"] :: List.replicate rest.length [] ∧
      (∀ l ∈ logs, l.events.filter Event.isDisplayCall = [] ∧ openedFiles l.events = []) := by
  have hb := initBlock_dir_none e0 (expectedOf e0.dispW e0.dispH) initialState rfl hdir
  have hp : (pacingState e0 initialState).frames = [] := by
    unfold pacingState
    rw [hb]
  have hi := pacingState_initialized e0 initialState
  have hh := handler_of_frames_nil e0 initialState hp
  refine ⟨_, runTicks_terminal e0 rest initialState _ _ hh hi hp, ?_, ?_, ?_, ?_, ?_⟩
  · rw [map_events_terminal (fun evs => evs), hb]
  · intro l hl
    simp only [List.mem_cons, List.mem_map] at hl
    rcases hl with rfl | ⟨e, -, rfl⟩ <;> exact ⟨hp, hi⟩
  · rw [map_events_terminal dirOpens, hb]
    rfl
  · rw [map_events_terminal messages, hb]
    rfl
  · intro l hl
    simp only [List.mem_cons, List.mem_map] at hl
    rcases hl with rfl | ⟨e, -, rfl⟩
    · simp only [hb]
      exact ⟨rfl, rfl⟩
    · exact ⟨rfl, rfl⟩

/-- C10 on a folder that does not open on the first tick and would open on the
two later ticks. -/
theorem directory_open_failure_is_terminal_witness :
    ({ exampleEnv 0 with dir := none } : Env).dir = none ∧
    ∃ logs,
      runTicks ({ exampleEnv 0 with dir := none } :: [exampleEnv 80, exampleEnv 160])
        initialState = some logs ∧
      logs.map (fun l => l.events) =
        [.openDir folder, .oledWord "No BadApple folder"] ::
          List.replicate [exampleEnv 80, exampleEnv 160].length [] ∧
      (∀ l ∈ logs, l.after.frames = [] ∧ l.after.initialized = true) ∧
      logs.map (fun l => dirOpens l.events) =
        1 :: List.replicate [exampleEnv 80, exampleEnv 160].length 0 ∧
      logs.map (fun l => messages l.events) =
        ["No BadApple folder"] :: List.replicate [exampleEnv 80, exampleEnv 160].length [] ∧
      (∀ l ∈ logs, l.events.filter Event.isDisplayCall = [] ∧ openedFiles l.events = []) :=
  ⟨rfl,
   directory_open_failure_is_terminal _ [exampleEnv 80, exampleEnv 160] rfl⟩

/-! ## The path normaliser -/

/-- The normaliser on a name that starts with the folder. -/
theorem normalizeName_of_startsWith (name : ArduinoString)
    (h : startsWith name folder = true) : normalizeName name = name := by
  simp [normalizeName, h]

/-- The normaliser on a name that does not start with the folder. -/
theorem normalizeName_of_not_startsWith (name : ArduinoString)
    (h : startsWith name folder = false) :
    normalizeName name =
      folder ++ '/' :: (if startsWith name ['/'] then name.drop 1 else name) := by
  have he : endsWith folder ['/'] = false := by decide
  have hs : "/".toList = ['/'] := rfl
  simp only [normalizeName, h, hs, he, substring, Bool.not_false, if_true,
    List.append_assoc, List.singleton_append]

/-- Every normalised name starts with the folder. -/
theorem startsWith_normalizeName (name : ArduinoString) :
    startsWith (normalizeName name) folder = true := by
  cases h : startsWith name folder with
  | true => rw [normalizeName_of_startsWith name h, h]
  | false =>
    rw [normalizeName_of_not_startsWith name h]
    simp [startsWith]

/-- C11: for every raw entry name the normaliser of lines 66-77 computes the
reference definition of the specification with the base folder
"/screensavers/badapple": the name itself when it starts with the base folder,
otherwise the base folder, "/" and the name without one leading "/". Both
sides are total functions. -/
theorem normalizeName_eq_normalizeSpec (name : ArduinoString) :
    normalizeName name = normalizeSpec "/screensavers/badapple".toList name := by
  have hf : "/screensavers/badapple".toList = folder := rfl
  rw [hf]
  cases h : startsWith name folder with
  | true =>
    rw [normalizeName_of_startsWith name h]
    have h' : folder.isPrefixOf name = true := h
    simp [normalizeSpec, h']
  | false =>
    rw [normalizeName_of_not_startsWith name h]
    have h' : folder.isPrefixOf name = false := h
    simp only [normalizeSpec, h', Bool.false_eq_true, if_false, List.append_assoc,
      List.singleton_append]
    congr 2
    cases name with
    | nil => rfl
    | cons c rest =>
      by_cases hc : c = '/'
      · subst hc
        simp [startsWith]
      · have : startsWith (c :: rest) ['/'] = false := by
          simp only [startsWith, List.isPrefixOf, Bool.and_true, beq_eq_false_iff_ne, ne_eq]
          exact fun hcc => hc hcc.symm
        rw [this]
        simp only [Bool.false_eq_true, if_false]
        split
        · rename_i heq
          cases heq
          exact absurd rfl hc
        · rfl

/-- C12, as the code has it: for every raw entry name the normalised path
begins with the base folder; for a name that does not start with the base
folder it begins with the base folder immediately followed by "/"; and a name
that starts with the base folder, as a string, is returned unchanged, whatever
follows the base folder in it. -/
theorem normalizeName_under_folder (name : ArduinoString) :
    folder <+: normalizeName name ∧
    (startsWith name folder = false → (folder ++ ['/']) <+: normalizeName name) ∧
    (startsWith name folder = true → normalizeName name = name) := by
  refine ⟨?_, fun h => ?_, normalizeName_of_startsWith name⟩
  · have := startsWith_normalizeName name
    simpa [startsWith] using this
  · rw [normalizeName_of_not_startsWith name h]
    exact ⟨if startsWith name ['/'] then name.drop 1 else name, by simp⟩

/-- C12 fails as stated: the names "/screensavers/badapple2/x.bin", which only
shares the base folder as a string prefix, and "/screensavers/badapple", the
base folder itself, are returned unchanged, and neither begins with the base
folder followed by "/". -/
theorem normalizeName_under_folder_counterexample :
    normalizeName "/screensavers/badapple2/x.bin".toList =
      "/screensavers/badapple2/x.bin".toList ∧
    ¬ (folder ++ ['/']) <+: normalizeName "/screensavers/badapple2/x.bin".toList ∧
    normalizeName "/screensavers/badapple".toList = "/screensavers/badapple".toList ∧
    ¬ (folder ++ ['/']) <+: normalizeName "/screensavers/badapple".toList := by
  decide

/-- C13, as the code has it: for every raw entry name that does not start with
the base folder and does not start with two separators, the normalised path is
the base folder, one "/" and a remainder that does not begin with "/". -/
theorem normalizeName_single_separator (name : ArduinoString)
    (hbase : startsWith name folder = false)
    (hdouble : startsWith name ['/', '/'] = false) :
    ∃ tail, normalizeName name = folder ++ '/' :: tail ∧ tail.head? ≠ some '/' := by
  rw [normalizeName_of_not_startsWith name hbase]
  refine ⟨_, rfl, ?_⟩
  cases name with
  | nil => simp [startsWith]
  | cons c rest =>
    by_cases hc : c = '/'
    · subst hc
      cases rest with
      | nil => simp [startsWith]
      | cons d rest' =>
        have hd : d ≠ '/' := by
          intro hd
          subst hd
          simp [startsWith] at hdouble
        simp only [startsWith, List.isPrefixOf, beq_self_eq_true, Bool.and_true, if_true,
          List.drop_succ_cons, List.drop_zero, List.head?_cons, ne_eq, Option.some.injEq]
        exact hd
    · have : startsWith (c :: rest) ['/'] = false := by
        simp only [startsWith, List.isPrefixOf, Bool.and_true, beq_eq_false_iff_ne, ne_eq]
        exact fun hcc => hc hcc.symm
      simp only [this, Bool.false_eq_true, if_false, List.head?_cons, ne_eq,
        Option.some.injEq]
      exact hc

/-- C13 as amended, on the name "/0001.bin". -/
theorem normalizeName_single_separator_witness :
    startsWith "/0001.bin".toList folder = false ∧
    startsWith "/0001.bin".toList ['/', '/'] = false ∧
    ∃ tail, normalizeName "/0001.bin".toList = folder ++ '/' :: tail ∧
      tail.head? ≠ some '/' :=
  ⟨by decide, by decide,
   normalizeName_single_separator "/0001.bin".toList (by decide) (by decide)⟩

/-- C13 fails as stated: the name "//0001.bin" does not start with the base
folder, one separator is stripped, and the normalised path is
"/screensavers/badapple//0001.bin", where the character after the base folder
and its "/" is another "/". -/
theorem normalizeName_single_separator_counterexample :
    startsWith "//0001.bin".toList folder = false ∧
    normalizeName "//0001.bin".toList = "/screensavers/badapple//0001.bin".toList ∧
    (normalizeName "//0001.bin".toList).drop (folder ++ ['/']).length =
      "/0001.bin".toList := by
  decide

/-- C20: for every raw entry name, normalising a normalised name changes
nothing, since every normalised name starts with the base folder and such a
name is returned as it is. -/
theorem normalizeName_idempotent (name : ArduinoString) :
    normalizeName (normalizeName name) = normalizeName name :=
  normalizeName_of_startsWith _ (startsWith_normalizeName name)

/-! ## Scanning and sorting -/

/-- The insertion step of `stdSort` under `frameLess` is the ordered insertion
for the lexicographic order. -/
theorem sortInsert_frameLess (x : ArduinoString) (l : List ArduinoString) :
    sortInsert frameLess x l = List.orderedInsert (fun a b => a ≤ b) x l := by
  induction l with
  | nil => rfl
  | cons y ys ih =>
    simp only [sortInsert, List.orderedInsert, frameLess, decide_eq_true_eq]
    by_cases h : y < x
    · simp [h, ih, not_le.mpr h]
    · simp [h, not_lt.mp h]

theorem stdSort_frameLess (l : List ArduinoString) :
    stdSort frameLess l = List.insertionSort (fun a b => a ≤ b) l := by
  induction l with
  | nil => rfl
  | cons x xs ih => simp [stdSort, List.insertionSort, ih, sortInsert_frameLess]

/-- The sorted frame list is ascending in the lexicographic order. -/
theorem sorted_stdSort (l : List ArduinoString) :
    List.Sorted (fun a b => a ≤ b) (stdSort frameLess l) := by
  rw [stdSort_frameLess]
  exact List.sorted_insertionSort _ l

/-- Sorting permutes the frame list. -/
theorem perm_stdSort (l : List ArduinoString) : List.Perm (stdSort frameLess l) l := by
  rw [stdSort_frameLess]
  exact List.perm_insertionSort _ l

/-- The scan keeps exactly the entries that are not directories, in listing
order, each under its normalised name. -/
theorem scanEntries_eq_map_filter (entries : List DirEntry) :
    scanEntries entries =
      (entries.filter fun e => !e.isDirectory).map fun e => normalizeName e.name := by
  induction entries with
  | nil => rfl
  | cons e rest ih =>
    unfold scanEntries
    cases he : e.isDirectory <;> simp [he, ih]

/-! ## What every tick preserves -/

/-- The play block on a state with a valid index returns, changes nothing but
`idx`, `lastMs` and `warnedSize`, keeps the index valid and never opens the
frame folder. -/
theorem playBlock_preserves (env : Env) (s : State) (hv : s.IndexValid) :
    ∃ s' events, playBlock env s = some (s', events) ∧
      s'.initialized = s.initialized ∧ s'.frames = s.frames ∧
      s'.expectedSize = s.expectedSize ∧ s'.buf = s.buf ∧
      s'.frameDelayMs = s.frameDelayMs ∧ s'.IndexValid ∧ dirOpens events = 0 := by
  by_cases hne : s.frames = []
  · exact ⟨s, [], playBlock_frames_nil env s hne, rfl, rfl, rfl, rfl, rfl, hv, rfl⟩
  · by_cases hgate : s.frameDelayMs ≤ wrapSub ULONG_BITS (wrap ULONG_BITS env.msNow) s.lastMs
    · obtain ⟨path, hpath⟩ := current_of_indexValid s hv hne
      have hlen : 0 < s.frames.length := List.length_pos.mpr hne
      have hadv : ∀ q : State, q.frames = s.frames → (advance q).IndexValid :=
        fun q hq => Or.inr (by
          simp only [advance, hq]
          exact Nat.mod_lt _ hlen)
      rw [playBlock_gate_open env s path hpath hgate]
      cases env.file path with
      | none => exact ⟨_, _, rfl, rfl, rfl, rfl, rfl, rfl, hadv _ rfl, rfl⟩
      | some f =>
        simp only
        split
        · split <;> exact ⟨_, _, rfl, rfl, rfl, rfl, rfl, rfl, hadv _ rfl, rfl⟩
        · split <;> exact ⟨_, _, rfl, rfl, rfl, rfl, rfl, rfl, hadv _ rfl, rfl⟩
    · exact ⟨s, [], playBlock_gate_closed env s (Nat.lt_of_not_le hgate), rfl, rfl, rfl, rfl,
        rfl, hv, rfl⟩

/-- A tick from a state with a valid index returns; past the initialisation
block it changes nothing but `idx`, `lastMs` and `warnedSize`, and it opens the
frame folder only in the initialisation block. -/
theorem tick_preserves (env : Env) (s : State) (hv : s.IndexValid) :
    ∃ s' events, applicationEinkHandler env s = some (s', events) ∧
      s'.initialized = true ∧ s'.frames = (pacingState env s).frames ∧
      s'.expectedSize = (pacingState env s).expectedSize ∧
      s'.buf = (pacingState env s).buf ∧ s'.frameDelayMs = s.frameDelayMs ∧
      s'.IndexValid ∧
      dirOpens events = dirOpens (initBlock env (expectedOf env.dispW env.dispH) s).events := by
  have hvp := pacingState_indexValid env s hv
  have hpi := pacingState_initialized env s
  have hpd := pacingState_frameDelayMs env s
  by_cases hne : (pacingState env s).frames = []
  · exact ⟨_, _, handler_of_frames_nil env s hne, hpi, rfl, rfl, rfl, hpd, hvp, rfl⟩
  · obtain ⟨s', events, hplay, hi, hf, he, hb, hd, hv', hdo⟩ :=
      playBlock_preserves env (pacingState env s) hvp
    rw [handler_of_frames_ne env s hne, hplay]
    exact ⟨_, _, rfl, hi.trans hpi, hf, he, hb, hd.trans hpd, hv',
      by simp [dirOpens_append, hdo]⟩

/-- C14: when the folder opens with the listing `entries`, which holds at least
one file, and `malloc` succeeds, the initialising tick returns and leaves a
frame list that is ascending in the lexicographic order of its paths, that is a
permutation of the normalised names of the entries that are not directories
(so no directory contributes and no file is dropped), and whose length is the
number of such entries. -/
theorem scan_sorted_permutation (e0 : Env) (entries : List DirEntry)
    (hdir : e0.dir = some entries) (hfile : ∃ e ∈ entries, e.isDirectory = false)
    (hmalloc : e0.mallocOk = true) :
    ∃ s1 events, applicationEinkHandler e0 initialState = some (s1, events) ∧
      List.Sorted (fun a b => a ≤ b) s1.frames ∧
      List.Perm s1.frames
        ((entries.filter fun e => !e.isDirectory).map fun e => normalizeName e.name) ∧
      s1.frames.length = entries.countP (fun e => !e.isDirectory) := by
  have hs : scanEntries entries ≠ [] := by
    intro h
    obtain ⟨e, he, hd⟩ := hfile
    have := (scanEntries_eq_nil_iff entries).mp h e he
    rw [hd] at this
    cases this
  have hb := initBlock_loaded e0 (expectedOf e0.dispW e0.dispH) initialState entries rfl
    hdir hs hmalloc
  have hpf : (pacingState e0 initialState).frames = stdSort frameLess (scanEntries entries) := by
    unfold pacingState
    rw [hb]
  obtain ⟨s1, events, hh, -, hf, -⟩ := tick_preserves e0 initialState (Or.inl rfl)
  rw [hpf] at hf
  refine ⟨s1, events, hh, ?_, ?_, ?_⟩
  · rw [hf]
    exact sorted_stdSort _
  · rw [hf, ← scanEntries_eq_map_filter]
    exact perm_stdSort _
  · rw [hf, length_stdSort, scanEntries_eq_map_filter, List.length_map, List.countP_eq_length_filter]

/-- C14 on a listing of two files around a subdirectory: the frame list is the
two normalised paths in ascending order. -/
theorem scan_sorted_permutation_witness :
    (sampleEnv 0 none).dir =
      some [ { name := "0002.bin".toList, isDirectory := false },
             { name := "extras".toList, isDirectory := true },
             { name := "/0001.bin".toList, isDirectory := false } ] ∧
    (∃ e ∈ [ ({ name := "0002.bin".toList, isDirectory := false } : DirEntry),
             { name := "extras".toList, isDirectory := true },
             { name := "/0001.bin".toList, isDirectory := false } ],
      e.isDirectory = false) ∧
    (sampleEnv 0 none).mallocOk = true ∧
    (∃ s1 events, applicationEinkHandler (sampleEnv 0 none) initialState = some (s1, events) ∧
      List.Sorted (fun a b => a ≤ b) s1.frames ∧
      List.Perm s1.frames
        (([ ({ name := "0002.bin".toList, isDirectory := false } : DirEntry),
            { name := "extras".toList, isDirectory := true },
            { name := "/0001.bin".toList, isDirectory := false } ].filter
          fun e => !e.isDirectory).map fun e => normalizeName e.name) ∧
      s1.frames.length =
        [ ({ name := "0002.bin".toList, isDirectory := false } : DirEntry),
          { name := "extras".toList, isDirectory := true },
          { name := "/0001.bin".toList, isDirectory := false } ].countP
          (fun e => !e.isDirectory)) ∧
    (applicationEinkHandler (sampleEnv 0 none) initialState).map (fun r => r.1.frames) =
      some [examplePath 1, examplePath 2] :=
  ⟨rfl, by decide, rfl,
   scan_sorted_permutation (sampleEnv 0 none) _ rfl (by decide) rfl,
   by rfl⟩

/-! ## Invariants of runs -/

/-- Every run from an initialised state with a valid index completes, and no
tick of it changes `initialized`, the frame list or `expectedSize`, or opens
the frame folder. -/
theorem run_initialized : ∀ (envs : List Env) (s : State), s.initialized = true →
    s.IndexValid →
    ∃ logs, runTicks envs s = some logs ∧ logs.map (fun l => l.env) = envs ∧
      ∀ l ∈ logs, l.before.initialized = true ∧ l.after.initialized = true ∧
        l.before.frames = s.frames ∧ l.after.frames = s.frames ∧
        l.before.expectedSize = s.expectedSize ∧ l.after.expectedSize = s.expectedSize ∧
        dirOpens l.events = 0 := by
  intro envs
  induction envs with
  | nil =>
    intro s _ _
    exact ⟨[], rfl, rfl, fun l hl => by cases hl⟩
  | cons env rest ih =>
    intro s hi hv
    obtain ⟨s', events, hh, hi', hf, he, -, -, hv', hdo⟩ := tick_preserves env s hv
    rw [pacingState_of_initialized env s hi] at hf he
    rw [initBlock_of_initialized env _ s hi] at hdo
    obtain ⟨logs, hrun, henv, hall⟩ := ih s' hi' hv'
    refine ⟨{ env := env, before := s, events := events, after := s' } :: logs,
      by rw [runTicks_cons env rest s s' events hh, hrun]; rfl, by simp [henv], ?_⟩
    intro l hl
    rcases List.mem_cons.mp hl with rfl | hl'
    · exact ⟨hi, hi', rfl, hf, rfl, he, hdo⟩
    · obtain ⟨h1, h2, h3, h4, h5, h6, h7⟩ := hall l hl'
      exact ⟨h1, h2, h3.trans hf, h4.trans hf, h5.trans he, h6.trans he, h7⟩

/-- Every run from a state with a valid index completes, and the index is
valid before every tick, at its pacing check and after it. -/
theorem run_indexValid : ∀ (envs : List Env) (s : State), s.IndexValid →
    ∃ logs, runTicks envs s = some logs ∧ logs.map (fun l => l.env) = envs ∧
      ∀ l ∈ logs, l.before.IndexValid ∧ (pacingState l.env l.before).IndexValid ∧
        l.after.IndexValid := by
  intro envs
  induction envs with
  | nil =>
    intro s _
    exact ⟨[], rfl, rfl, fun l hl => by cases hl⟩
  | cons env rest ih =>
    intro s hv
    obtain ⟨s', events, hh, -, -, -, -, -, hv', -⟩ := tick_preserves env s hv
    obtain ⟨logs, hrun, henv, hall⟩ := ih s' hv'
    refine ⟨{ env := env, before := s, events := events, after := s' } :: logs,
      by rw [runTicks_cons env rest s s' events hh, hrun]; rfl, by simp [henv], ?_⟩
    intro l hl
    rcases List.mem_cons.mp hl with rfl | hl'
    · exact ⟨hv, pacingState_indexValid env s hv, hv'⟩
    · exact hall l hl'

/-- The value of line 45 for display dimensions in the range of a non-negative
`int` whose product fits `size_t`. -/
theorem expectedOf_eq (w h : Int) (hw0 : 0 ≤ w) (hh0 : 0 ≤ h) (hw : w < 2 ^ 31)
    (hh : h < 2 ^ 31) (hprod : w * h < 2 ^ 32) :
    expectedOf w h = w.toNat * h.toNat / 8 := by
  obtain ⟨a, rfl⟩ := Int.eq_ofNat_of_zero_le hw0
  obtain ⟨b, rfl⟩ := Int.eq_ofNat_of_zero_le hh0
  have ha : a < 2 ^ 32 := by omega
  have hb : b < 2 ^ 32 := by omega
  have hab : a * b < 2 ^ 32 := by exact_mod_cast hprod
  have hta : toSizeT (a : Int) = a := by
    unfold toSizeT ULONG_BITS
    rw [Int.emod_eq_of_lt (by omega) (by omega)]
    rfl
  have htb : toSizeT (b : Int) = b := by
    unfold toSizeT ULONG_BITS
    rw [Int.emod_eq_of_lt (by omega) (by omega)]
    rfl
  simp only [expectedOf, wrap, ULONG_BITS, hta, htb, Int.toNat_ofNat]
  rw [Nat.mod_eq_of_lt hab]

/-- C15: every run of an initialising tick followed by any further ticks
completes. The first tick leaves `initialized` true, and every later tick
starts and ends with `initialized` true, with the frame list the first tick
left (same paths, same order) and with its `expectedSize`, and never opens the
frame folder, whatever the later ticks are given as display dimensions or
folder. When the folder lists a file on the first tick, that `expectedSize` is
the value line 45 computes from the display of the first tick, which is
`width * height / 8` for dimensions of a non-negative `int` whose product fits
`size_t`. -/
theorem initialization_is_permanent (e0 : Env) (rest : List Env) :
    ∃ s1 events1 logs,
      applicationEinkHandler e0 initialState = some (s1, events1) ∧
      runTicks (e0 :: rest) initialState =
        some ({ env := e0, before := initialState, events := events1, after := s1 } :: logs) ∧
      logs.map (fun l => l.env) = rest ∧
      s1.initialized = true ∧
      (∀ l ∈ logs, l.before.initialized = true ∧ l.after.initialized = true ∧
        l.before.frames = s1.frames ∧ l.after.frames = s1.frames ∧
        l.before.expectedSize = s1.expectedSize ∧ l.after.expectedSize = s1.expectedSize ∧
        dirOpens l.events = 0) ∧
      (∀ entries, e0.dir = some entries → (∃ e ∈ entries, e.isDirectory = false) →
        s1.expectedSize = expectedOf e0.dispW e0.dispH) ∧
      (0 ≤ e0.dispW → 0 ≤ e0.dispH → e0.dispW < 2 ^ 31 → e0.dispH < 2 ^ 31 →
        e0.dispW * e0.dispH < 2 ^ 32 →
        expectedOf e0.dispW e0.dispH = e0.dispW.toNat * e0.dispH.toNat / 8) := by
  obtain ⟨s1, events1, hh, hi1, -, he1, -, -, hv1, -⟩ :=
    tick_preserves e0 initialState (Or.inl rfl)
  obtain ⟨logs, hrun, henv, hall⟩ := run_initialized rest s1 hi1 hv1
  refine ⟨s1, events1, logs, hh,
    by rw [runTicks_cons e0 rest initialState s1 events1 hh, hrun]; rfl, henv, hi1, hall,
    ?_, expectedOf_eq e0.dispW e0.dispH⟩
  intro entries hdir hfile
  have hs : scanEntries entries ≠ [] := by
    intro h
    obtain ⟨e, hmem, hd⟩ := hfile
    have := (scanEntries_eq_nil_iff entries).mp h e hmem
    rw [hd] at this
    cases this
  rw [he1]
  unfold pacingState
  cases hm : e0.mallocOk with
  | false =>
    rw [initBlock_no_ram e0 _ initialState entries rfl hdir hs hm]
  | true =>
    rw [initBlock_loaded e0 _ initialState entries rfl hdir hs hm]

/-- C16: every run of ticks from the initial state completes, so that no tick
reads `frames[idx]` out of range; before and after every tick the frame list is
empty or `idx < frames.size()`; and on every tick that passes the pacing check
the state at that check has `idx < frames.size()`, which makes the lookup of
line 117 in bounds and the modulus of lines 121 to 153 positive. -/
theorem index_always_valid (envs : List Env) :
    ∃ logs, runTicks envs initialState = some logs ∧ logs.map (fun l => l.env) = envs ∧
      ∀ l ∈ logs,
        (l.before.frames = [] ∨ l.before.idx < l.before.frames.length) ∧
        (l.after.frames = [] ∨ l.after.idx < l.after.frames.length) ∧
        (l.gate = true →
          (pacingState l.env l.before).idx < (pacingState l.env l.before).frames.length ∧
          0 < (pacingState l.env l.before).frames.length) := by
  obtain ⟨logs, hrun, henv, hall⟩ := run_indexValid envs initialState (Or.inl rfl)
  refine ⟨logs, hrun, henv, fun l hl => ?_⟩
  obtain ⟨hb, hp, ha⟩ := hall l hl
  refine ⟨hb, ha, fun hg => ?_⟩
  have hne : (pacingState l.env l.before).frames ≠ [] := by
    intro hnil
    simp [TickLog.gate, hnil] at hg
  rcases hp with hp | hp
  · exact absurd hp hne
  · exact ⟨hp, Nat.lt_of_le_of_lt (Nat.zero_le _) hp⟩

/-! ## The initialising tick -/

/-- C17, as the code has it: on the first tick, when the clock reading at the
pacing check is less than `frameDelayMs` after the reading taken at the end of
the initialisation (in `unsigned long` arithmetic), the tick returns without
opening a frame file and without any call on the display, and leaves
`idx = 0`, whatever the folder holds. The pacing check of line 113 is made on
this tick too whenever frames were loaded. -/
theorem initializing_tick_within_interval_does_not_draw (e0 : Env)
    (hclose : wrapSub ULONG_BITS (wrap ULONG_BITS e0.msNow) (wrap ULONG_BITS e0.msLoaded) <
      initialState.frameDelayMs) :
    ∃ s1 events, applicationEinkHandler e0 initialState = some (s1, events) ∧
      openedFiles events = [] ∧ events.filter Event.isDisplayCall = [] ∧ s1.idx = 0 := by
  have hopen := openedFiles_initBlock e0 (expectedOf e0.dispW e0.dispH) initialState
  have hdisp := displayCalls_initBlock e0 (expectedOf e0.dispW e0.dispH) initialState
  have hcases := initBlock_cases e0 (expectedOf e0.dispW e0.dispH) initialState
  have hidx : (pacingState e0 initialState).idx = 0 := by
    unfold pacingState
    rcases hcases with ⟨hi, _⟩ | ⟨_, _, he⟩ | ⟨_, _, _, _, he⟩ | ⟨_, _, _, _, _, he⟩ |
      ⟨_, _, _, _, _, he⟩
    · cases hi
    all_goals rw [he]
  by_cases hne : (pacingState e0 initialState).frames = []
  · exact ⟨_, _, handler_of_frames_nil e0 initialState hne, hopen, hdisp, hidx⟩
  · have hlast : (pacingState e0 initialState).lastMs = wrap ULONG_BITS e0.msLoaded := by
      unfold pacingState at hne ⊢
      rcases hcases with ⟨hi, _⟩ | ⟨_, _, he⟩ | ⟨_, _, _, _, he⟩ | ⟨_, _, _, _, _, he⟩ |
        ⟨_, _, _, _, _, he⟩
      · cases hi
      · rw [he] at hne
        exact absurd rfl hne
      · rw [he] at hne
        exact absurd rfl hne
      · rw [he] at hne
        exact absurd rfl hne
      · rw [he]
    have hlt : wrapSub ULONG_BITS (wrap ULONG_BITS e0.msNow)
        (pacingState e0 initialState).lastMs < (pacingState e0 initialState).frameDelayMs := by
      rw [hlast, pacingState_frameDelayMs]
      exact hclose
    rw [handler_of_frames_ne e0 initialState hne, playBlock_gate_closed e0 _ hlt]
    exact ⟨_, _, rfl, by simp [openedFiles_append, hopen, openedFiles],
      by simp [hdisp], hidx⟩

/-- C17 as amended, on the initialising tick of the example scenario, where
all clock readings are 0. -/
theorem initializing_tick_within_interval_does_not_draw_witness :
    wrapSub ULONG_BITS (wrap ULONG_BITS (exampleEnv 0).msNow)
        (wrap ULONG_BITS (exampleEnv 0).msLoaded) < initialState.frameDelayMs ∧
    ∃ s1 events, applicationEinkHandler (exampleEnv 0) initialState = some (s1, events) ∧
      openedFiles events = [] ∧ events.filter Event.isDisplayCall = [] ∧ s1.idx = 0 :=
  ⟨by decide, initializing_tick_within_interval_does_not_draw (exampleEnv 0) (by decide)⟩

/-- C17 fails as stated: on the example folder, with the clock reading 0 at
the end of the initialisation and 100 at the pacing check (monotonic readings),
the initialising tick itself opens `0001.bin`, draws it and leaves
`idx = 1`. -/
theorem initializing_tick_counterexample :
    ({ exampleEnv 0 with msNow := 100 } : Env).msReset ≤
      ({ exampleEnv 0 with msNow := 100 } : Env).msLoaded ∧
    ({ exampleEnv 0 with msNow := 100 } : Env).msLoaded ≤
      ({ exampleEnv 0 with msNow := 100 } : Env).msNow ∧
    (applicationEinkHandler { exampleEnv 0 with msNow := 100 } initialState).map
      (fun r => (openedFiles r.2, r.2.filter Event.isDisplayCall, r.1.idx)) =
      some ([examplePath 1], drawSequence (some 4000) 160 200, 1) :=
  ⟨by decide, by decide, by rfl⟩

/-! ## Failures that show nothing -/

/-- C18: in an initialised state whose index designates a frame, a tick that
passes the pacing check and whose current frame file does not open, or opens
with `expectedSize` bytes and returns a byte count other than `expectedSize`
from the read (in particular fewer), returns a state that differs from the old
one in `idx`, now `(idx + 1) % frames.size()`, and `lastMs`, now `now`, only (so
`warnedSize` is as before), shows no status message and makes no call on the
display. -/
theorem transient_failures_are_silent (env : Env) (s : State)
    (hinit : s.initialized = true) (hidx : s.idx < s.frames.length)
    (hgate : s.frameDelayMs ≤ wrapSub ULONG_BITS (wrap ULONG_BITS env.msNow) s.lastMs)
    (hfail : env.file s.frames[s.idx] = none ∨
      ∃ f, env.file s.frames[s.idx] = some f ∧ f.size = s.expectedSize ∧
        f.readBytes ≠ s.expectedSize) :
    ∃ events,
      applicationEinkHandler env s =
        some ({ s with idx := (s.idx + 1) % s.frames.length,
                       lastMs := wrap ULONG_BITS env.msNow }, events) ∧
      messages events = [] ∧ events.filter Event.isDisplayCall = [] := by
  have hpath : s.frames[s.idx]? = some s.frames[s.idx] := List.getElem?_eq_getElem hidx
  rw [handler_of_initialized env s hinit, playBlock_gate_open env s _ hpath hgate]
  rcases hfail with hf | ⟨f, hf, hsz, hrd⟩
  · rw [hf]
    exact ⟨_, rfl, rfl, rfl⟩
  · rw [hf]
    simp only [hsz, hrd, ne_eq, not_true_eq_false, not_false_eq_true, if_false, if_true]
    exact ⟨_, rfl, rfl, rfl⟩

/-- C18 on the two-frame sample state, with a tick at clock 80 whose frame
file opens with 4000 bytes and delivers 100 of them. -/
theorem transient_failures_are_silent_witness :
    sampleState.initialized = true ∧ sampleState.idx < sampleState.frames.length ∧
    sampleState.frameDelayMs ≤
      wrapSub ULONG_BITS (wrap ULONG_BITS (sampleEnv 80 (some ⟨4000, 100⟩)).msNow)
        sampleState.lastMs ∧
    ((sampleEnv 80 (some ⟨4000, 100⟩)).file sampleState.frames[sampleState.idx] = none ∨
      ∃ f, (sampleEnv 80 (some ⟨4000, 100⟩)).file sampleState.frames[sampleState.idx] =
          some f ∧ f.size = sampleState.expectedSize ∧
        f.readBytes ≠ sampleState.expectedSize) ∧
    ∃ events,
      applicationEinkHandler (sampleEnv 80 (some ⟨4000, 100⟩)) sampleState =
        some ({ sampleState with
                  idx := (sampleState.idx + 1) % sampleState.frames.length,
                  lastMs := wrap ULONG_BITS (sampleEnv 80 (some ⟨4000, 100⟩)).msNow },
              events) ∧
      messages events = [] ∧ events.filter Event.isDisplayCall = [] :=
  ⟨by decide, by decide, by decide, Or.inr ⟨⟨4000, 100⟩, rfl, by decide, by decide⟩,
   transient_failures_are_silent (sampleEnv 80 (some ⟨4000, 100⟩)) sampleState
     (by decide) (by decide) (by decide)
     (Or.inr ⟨⟨4000, 100⟩, rfl, by decide, by decide⟩)⟩

/-! ## Pacing across a wrap of the clock -/

/-- Unsigned subtraction is the difference of the integers reduced modulo
`2 ^ w`. -/
theorem wrapSub_eq_emod (w a b : Nat) :
    ((wrapSub w a b : Nat) : Int) = ((a : Int) - (b : Int)) % (2 : Int) ^ w := by
  have hM : 0 < 2 ^ w := Nat.pow_pos (by decide)
  have hb : b % 2 ^ w ≤ a % 2 ^ w + 2 ^ w :=
    Nat.le_trans (Nat.le_of_lt (Nat.mod_lt b hM)) (Nat.le_add_left _ _)
  unfold wrapSub
  rw [Int.natCast_mod, Nat.cast_sub hb]
  push_cast
  rw [Int.sub_emod, Int.add_emod_self, Int.emod_emod_of_dvd _ (dvd_refl _),
    Int.emod_emod_of_dvd _ (dvd_refl _), ← Int.sub_emod]

/-- The clock read `d` milliseconds after a reading at true time `T`, both
truncated to `w` bits, is `d` ahead in unsigned arithmetic when `d < 2 ^ w`. -/
theorem wrapSub_elapsed (w T d : Nat) (hd : d < 2 ^ w) :
    wrapSub w (wrap w (T + d)) (wrap w T) = d := by
  have hM : 0 < 2 ^ w := Nat.pow_pos (by decide)
  have hr : T % 2 ^ w < 2 ^ w := Nat.mod_lt T hM
  have hsum : (T + d) % 2 ^ w = (T % 2 ^ w + d) % 2 ^ w := by
    rw [Nat.add_mod, Nat.mod_eq_of_lt hd]
  unfold wrapSub wrap
  rw [Nat.mod_mod, Nat.mod_mod, hsum]
  by_cases hlt : T % 2 ^ w + d < 2 ^ w
  · rw [Nat.mod_eq_of_lt hlt]
    have : T % 2 ^ w + d + 2 ^ w - T % 2 ^ w = d + 2 ^ w := by omega
    rw [this, Nat.add_mod_right, Nat.mod_eq_of_lt hd]
  · have hge : 2 ^ w ≤ T % 2 ^ w + d := Nat.le_of_not_lt hlt
    have hmod : (T % 2 ^ w + d) % 2 ^ w = T % 2 ^ w + d - 2 ^ w := by
      rw [Nat.mod_eq_sub_mod hge]
      exact Nat.mod_eq_of_lt (by omega)
    rw [hmod]
    have : T % 2 ^ w + d - 2 ^ w + 2 ^ w - T % 2 ^ w = d := by omega
    rw [this, Nat.mod_eq_of_lt hd]

/-- C19: with the clock and `lastMs` held in `w` bits, the pacing check
depends on `now` and `lastMs` through `(now - lastMs) mod 2 ^ w` only. So when
`lastMs` is the truncated clock at true time `T` and `now` the truncated clock
`d` milliseconds later, with `d < 2 ^ w`, the unsigned difference is `d` and
the gate opens exactly when `d >= frameDelayMs`, also when the clock has
wrapped in between and `now < lastMs` as numbers; this holds in particular of
`gateOpen`, the check of line 113 at the width of the target. -/
theorem pacing_across_wraparound (w T d : Nat) (s : State) (hd : d < 2 ^ w)
    (hlast : s.lastMs = wrap w T) :
    (∀ now lastMs : Nat,
      ((wrapSub w now lastMs : Nat) : Int) = ((now : Int) - (lastMs : Int)) % (2 : Int) ^ w) ∧
    wrapSub w (wrap w (T + d)) s.lastMs = d ∧
    (s.frameDelayMs ≤ wrapSub w (wrap w (T + d)) s.lastMs ↔ s.frameDelayMs ≤ d) ∧
    (w = ULONG_BITS →
      (gateOpen (wrap ULONG_BITS (T + d)) s = true ↔ s.frameDelayMs ≤ d)) := by
  have hel : wrapSub w (wrap w (T + d)) s.lastMs = d := by
    rw [hlast]
    exact wrapSub_elapsed w T d hd
  refine ⟨wrapSub_eq_emod w, hel, by rw [hel], fun hw => ?_⟩
  subst hw
  simp [gateOpen, hel]

/-- C19 at the width of the target, for a state whose `lastMs` was read 10 ms
before the clock wraps: 85 ms later the clock reads 75 and the gate is open,
70 ms later it reads 60 and the gate is closed. -/
theorem pacing_across_wraparound_witness :
    (85 < 2 ^ ULONG_BITS ∧
     ({ sampleState with lastMs := 2 ^ ULONG_BITS - 10 } : State).lastMs =
       wrap ULONG_BITS (2 ^ ULONG_BITS - 10)) ∧
    ((∀ now lastMs : Nat,
      ((wrapSub ULONG_BITS now lastMs : Nat) : Int) =
        ((now : Int) - (lastMs : Int)) % (2 : Int) ^ ULONG_BITS) ∧
    wrapSub ULONG_BITS (wrap ULONG_BITS (2 ^ ULONG_BITS - 10 + 85))
      ({ sampleState with lastMs := 2 ^ ULONG_BITS - 10 } : State).lastMs = 85 ∧
    (({ sampleState with lastMs := 2 ^ ULONG_BITS - 10 } : State).frameDelayMs ≤
        wrapSub ULONG_BITS (wrap ULONG_BITS (2 ^ ULONG_BITS - 10 + 85))
          ({ sampleState with lastMs := 2 ^ ULONG_BITS - 10 } : State).lastMs ↔
      ({ sampleState with lastMs := 2 ^ ULONG_BITS - 10 } : State).frameDelayMs ≤ 85) ∧
    (ULONG_BITS = ULONG_BITS →
      (gateOpen (wrap ULONG_BITS (2 ^ ULONG_BITS - 10 + 85))
          { sampleState with lastMs := 2 ^ ULONG_BITS - 10 } = true ↔
        ({ sampleState with lastMs := 2 ^ ULONG_BITS - 10 } : State).frameDelayMs ≤ 85))) ∧
    wrap ULONG_BITS (2 ^ ULONG_BITS - 10 + 85) = 75 ∧
    gateOpen 75 { sampleState with lastMs := 2 ^ ULONG_BITS - 10 } = true ∧
    wrap ULONG_BITS (2 ^ ULONG_BITS - 10 + 70) = 60 ∧
    gateOpen 60 { sampleState with lastMs := 2 ^ ULONG_BITS - 10 } = false :=
  ⟨⟨by decide, by decide⟩,
   pacing_across_wraparound ULONG_BITS (2 ^ ULONG_BITS - 10) 85
     { sampleState with lastMs := 2 ^ ULONG_BITS - 10 } (by decide) (by decide),
   by decide, by decide, by decide, by decide⟩

end BadApple
